import Mathlib

/-!
# envloader: binding string key/value data onto the fields of a struct

A shallow embedding of `bind.go` (`BindStruct`) and of `loader.go` (`LoadEnvReader`,
`LoadAndBindEnvReader`) together with the parts of the Go standard library they call
(`strings.Split`, `strings.SplitN`, `strings.TrimSpace`, `strconv.ParseInt`,
`strconv.ParseUint`, `strconv.ParseBool`, the `reflect` setters, `bufio.ScanLines`,
`os.Setenv` and `os.LookupEnv`), followed by theorems about them.

Conventions of the embedding.

* A Go `string` is a Lean `String`; the byte loops of `strconv` run over its characters
  (every byte of a non-ASCII character is `>= 0x80` and is rejected exactly like the
  character itself).
* The reflective walk `for i := 0; i < NumField(); i++` is a recursion over the list of
  fields; a field records what `reflect` reports about it (name, exportedness, the
  value of the `env` tag, its kind) and the value it currently holds.
* `BindStruct` mutates the struct in place and returns an error; the embedding returns
  the struct after the call, the error, and the list of keys handed to the provider.
* The process environment is a map from names to values that the loader takes and
  returns; the reader is given by what the scanner yields from it.
* Floating point is not modelled bit by bit: the float and complex parsers and the
  narrowing conversions are fields of `GoLib`, and every theorem holds for all of them.
-/

deriving instance DecidableEq for Except

namespace Envloader

/-! ## Standard library -/

/-- The two sentinel errors a `strconv.NumError` can wrap. -/
inductive NumError where
  | ErrSyntax
  | ErrRange
  deriving DecidableEq

/-- The enumeration `reflect.Kind`. -/
inductive Kind where
  | Invalid
  | Bool
  | Int
  | Int8
  | Int16
  | Int32
  | Int64
  | Uint
  | Uint8
  | Uint16
  | Uint32
  | Uint64
  | Uintptr
  | Float32
  | Float64
  | Complex64
  | Complex128
  | Array
  | Chan
  | Func
  | Interface
  | Map
  | Pointer
  | Slice
  | String
  | Struct
  | UnsafePointer
  deriving DecidableEq

/-- What `BindStruct` uses of the Go runtime without the embedding fixing it: the float
and complex types (`F` stands for `float64`, `C` for `complex128`), their parsers
`strconv.ParseFloat(s, bitSize)` and `strconv.ParseComplex(s, bitSize)`, the narrowing
conversions `float32(x)` and `complex64(z)` made by `reflect.Value.SetFloat` and
`SetComplex`, and the width of `int`, `uint` and `uintptr`. The two laws record that
both parsers reject the empty text with a syntax error. -/
structure GoLib (F C : Type) where
  intSize : Nat
  intSize_eq : intSize = 32 ∨ intSize = 64
  ParseFloat : String → Nat → Except NumError F
  ParseComplex : String → Nat → Except NumError C
  toFloat32 : F → F
  toComplex64 : C → C
  ParseFloat_empty : ∀ bitSize, ParseFloat "" bitSize = .error .ErrSyntax
  ParseComplex_empty : ∀ bitSize, ParseComplex "" bitSize = .error .ErrSyntax

/-- `strings.Split` on character lists, for a separator of one character: the pieces of
the text between the occurrences of the separator, so always at least one piece. -/
def splitChars (sep : Char) : List Char → List (List Char)
  | [] => [[]]
  | c :: cs =>
    if c = sep then [] :: splitChars sep cs
    else
      match splitChars sep cs with
      | [] => [[c]]
      | p :: ps => (c :: p) :: ps

/-- `strings.Split(s, sep)` for a separator of one character. -/
def Split (s : String) (sep : Char) : List String :=
  (splitChars sep s.data).map String.mk

/-- The digit value `strconv.ParseUint` gives a byte: `c - '0'` for a decimal digit,
`lower(c) - 'a' + 10` for a letter (`lower(c) = c | 0x20`), none otherwise. -/
def digitOf (c : Char) : Option Nat :=
  if 48 ≤ c.toNat ∧ c.toNat ≤ 57 then some (c.toNat - 48)
  else if 97 ≤ (c.toNat ||| 32) ∧ (c.toNat ||| 32) ≤ 122 then some ((c.toNat ||| 32) - 97 + 10)
  else none

/-- The largest `uint64`. -/
def maxUint64 : Nat := 18446744073709551615

/-- The digit loop of `strconv.ParseUint` for an explicit base (`2 <= base <= 36`):
`n` is the `uint64` accumulator, `maxVal = 1<<bitSize - 1`. -/
def ParseUintLoop (base maxVal : Nat) : List Char → Nat → Except NumError Nat
  | [], n => .ok n
  | c :: cs, n =>
    match digitOf c with
    | none => .error .ErrSyntax
    | some d =>
      if d ≥ base then .error .ErrSyntax
      else if n ≥ maxUint64 / base + 1 then .error .ErrRange
      else
        let n0 := n * base
        let n1 := (n0 + d) % 18446744073709551616
        if n1 < n0 ∨ n1 > maxVal then .error .ErrRange
        else ParseUintLoop base maxVal cs n1

/-- `strconv.ParseUint(s, base, bitSize)` for an explicit base (the callers pass 10, so
the prefix and underscore handling of base 0 is not reached). -/
def ParseUint (s : String) (base bitSize : Nat) : Except NumError Nat :=
  if s = "" then .error .ErrSyntax
  else ParseUintLoop base (2 ^ bitSize - 1) s.data 0

/-- `strconv.ParseInt(s, base, bitSize)` for an explicit base: an optional sign, then
`ParseUint`, then the range check against `cutoff = 1 << (bitSize-1)`. A range error of
`ParseUint` stays a range error: Go goes on with `un = maxVal`, which is beyond the
cutoff. -/
def ParseInt (s : String) (base bitSize : Nat) : Except NumError Int :=
  match s.data with
  | [] => .error .ErrSyntax
  | c :: cs =>
    let neg := decide (c = '-')
    let rest := if c = '+' ∨ c = '-' then cs else c :: cs
    match ParseUint (String.mk rest) base bitSize with
    | .error .ErrSyntax => .error .ErrSyntax
    | .error .ErrRange => .error .ErrRange
    | .ok un =>
      let cutoff := 2 ^ (bitSize - 1)
      if neg = false ∧ un ≥ cutoff then .error .ErrRange
      else if neg = true ∧ un > cutoff then .error .ErrRange
      else .ok (if neg then - (un : Int) else (un : Int))

/-- The first case list of the switch of `strconv.ParseBool`. -/
def strconvTrue : List String := ["1", "t", "T", "true", "TRUE", "True"]

/-- The second case list of the switch of `strconv.ParseBool`. -/
def strconvFalse : List String := ["0", "f", "F", "false", "FALSE", "False"]

/-- `strconv.ParseBool`. -/
def ParseBool (str : String) : Except NumError Bool :=
  if str ∈ strconvTrue then .ok true
  else if str ∈ strconvFalse then .ok false
  else .error .ErrSyntax

/-- The Go conversion of an integer to the signed type of `w` bits: the low `w` bits,
read as two's complement. -/
def wrapSigned (w : Nat) (x : Int) : Int :=
  let u := x % 2 ^ w
  if u ≥ 2 ^ (w - 1) then u - 2 ^ w else u

/-- The Go conversion of an unsigned integer to the unsigned type of `w` bits. -/
def wrapUnsigned (w : Nat) (x : Nat) : Nat := x % 2 ^ w

/-! ## Data model -/

/-- A value held by a struct field. `other` is a value of a kind the binder does not
support (slice, map, struct, ...), whose content plays no part. -/
inductive Value (F C : Type) where
  | str (s : String)
  | int (i : Int)
  | uint (n : Nat)
  | float (x : F)
  | complex (z : C)
  | bool (b : Bool)
  | other
  deriving DecidableEq

/-- A field of the struct as `reflect` shows it: `Name` and `exported` are
`fieldType.Name` and `fieldType.IsExported()`, `envTag` is `fieldType.Tag.Get("env")`
(empty when the field has no such tag), `kind` is `field.Kind()`. -/
structure Field (F C : Type) where
  Name : String
  exported : Bool
  envTag : String
  kind : Kind
  value : Value F C
  deriving DecidableEq

/-- The `config interface{}` argument: a pointer to a struct, or anything else. -/
inductive Target (F C : Type) where
  | structPtr (fields : List (Field F C))
  | other
  deriving DecidableEq

/-- The type `dataProvider`: a value, or an error (given by its text). -/
abbrev dataProvider := String → Except String String

/-- The errors `BindStruct` returns, one constructor for each `fmt.Errorf` in it, with
the arguments of the format. -/
inductive BindError where
  /-- The text is: config must be a pointer to a struct. -/
  | notStructPointer
  /-- The text is: failed to get value for field NAME: CAUSE. -/
  | getValue (fieldName : String) (cause : String)
  /-- The text is: required environment variable KEY is missing. -/
  | requiredMissing (envVarName : String)
  /-- The text is: failed to parse int value for field NAME: CAUSE. -/
  | parseInt (fieldName : String) (cause : NumError)
  /-- The text is: failed to parse uint value for field NAME: CAUSE. -/
  | parseUint (fieldName : String) (cause : NumError)
  /-- The text is: failed to parse float value for field NAME: CAUSE. -/
  | parseFloat (fieldName : String) (cause : NumError)
  /-- The text is: failed to parse complex value for field NAME: CAUSE. -/
  | parseComplex (fieldName : String) (cause : NumError)
  /-- The text is: failed to parse bool value for field NAME: CAUSE. -/
  | parseBool (fieldName : String) (cause : NumError)
  /-- The text is: unsupported field type: KIND. -/
  | unsupportedKind (kind : Kind)
  deriving DecidableEq

/-- The number of bits of an integer kind (0 for the other kinds). -/
def Kind.bits {F C : Type} (L : GoLib F C) : Kind → Nat
  | .Int => L.intSize
  | .Int8 => 8
  | .Int16 => 16
  | .Int32 => 32
  | .Int64 => 64
  | .Uint => L.intSize
  | .Uint8 => 8
  | .Uint16 => 16
  | .Uint32 => 32
  | .Uint64 => 64
  | .Uintptr => L.intSize
  | _ => 0

/-- `reflect.Value.SetInt`: stores `intN(x)` in a field of kind `IntN`. -/
def SetInt {F C : Type} (L : GoLib F C) (k : Kind) (x : Int) : Value F C :=
  .int (wrapSigned (k.bits L) x)

/-- `reflect.Value.SetUint`: stores `uintN(x)` in a field of kind `UintN`. -/
def SetUint {F C : Type} (L : GoLib F C) (k : Kind) (x : Nat) : Value F C :=
  .uint (wrapUnsigned (k.bits L) x)

/-- `reflect.Value.SetFloat`: stores `float32(x)` in a `Float32` field, `x` in a
`Float64` field. -/
def SetFloat {F C : Type} (L : GoLib F C) (k : Kind) (x : F) : Value F C :=
  if k = .Float32 then .float (L.toFloat32 x) else .float x

/-- `reflect.Value.SetComplex`: stores `complex64(z)` in a `Complex64` field, `z` in a
`Complex128` field. -/
def SetComplex {F C : Type} (L : GoLib F C) (k : Kind) (z : C) : Value F C :=
  if k = .Complex64 then .complex (L.toComplex64 z) else .complex z

/-! ## BindStruct -/

/-- The case list of the switch on `envValue` that sets a boolean field to true. -/
def truthyLiterals : List String := ["Y", "y", "Yes", "YES", "yes", "on"]

/-- The case list of the switch on `envValue` that sets a boolean field to false. -/
def falsyLiterals : List String := ["N", "n", "No", "NO", "no", "off"]

/-- The `switch field.Kind()` of `BindStruct`: the value to store in a field of kind `k`
named `name` for the text `envValue`, or the error returned. -/
def setField {F C : Type} (L : GoLib F C) (k : Kind) (name envValue : String) :
    Except BindError (Value F C) :=
  match k with
  | .String => .ok (.str envValue)
  | .Int | .Int8 | .Int16 | .Int32 | .Int64 =>
    match ParseInt envValue 10 64 with
    | .error err => .error (.parseInt name err)
    | .ok val => .ok (SetInt L k val)
  | .Uint | .Uint8 | .Uint16 | .Uint32 | .Uint64 | .Uintptr =>
    match ParseUint envValue 10 64 with
    | .error err => .error (.parseUint name err)
    | .ok val => .ok (SetUint L k val)
  | .Float32 | .Float64 =>
    match L.ParseFloat envValue 64 with
    | .error err => .error (.parseFloat name err)
    | .ok val => .ok (SetFloat L k val)
  | .Complex64 | .Complex128 =>
    match L.ParseComplex envValue 64 with
    | .error err => .error (.parseComplex name err)
    | .ok val => .ok (SetComplex L k val)
  | .Bool =>
    if envValue ∈ truthyLiterals then .ok (.bool true)
    else if envValue ∈ falsyLiterals then .ok (.bool false)
    else
      match ParseBool envValue with
      | .error err => .error (.parseBool name err)
      | .ok val => .ok (.bool val)
  | k => .error (.unsupportedKind k)

/-- The lookup key of a tag: `parts[0]` of `strings.Split(tag, ",")`. -/
def envVarName (tag : String) : String :=
  (Split tag ',').headD ""

/-- The loop over `parts[1:]`: whether some option is exactly `required`. -/
def isRequired (tag : String) : Bool :=
  (Split tag ',').tail.any (fun opt => decide (opt = "required"))

/-- What one iteration of the loop of `BindStruct` does: the field after it, the key
given to the provider (none when the provider is not called), and the error returned
(none when the loop goes on). -/
structure Step (F C : Type) where
  field : Field F C
  call : Option String
  err : Option BindError
  deriving DecidableEq

/-- The body of the loop of `BindStruct` for the field `f`. -/
def bindField {F C : Type} (L : GoLib F C) (provider : dataProvider) (f : Field F C) :
    Step F C :=
  if f.exported = false then ⟨f, none, none⟩
  else if f.envTag = "" then ⟨f, none, none⟩
  else
    let key := envVarName f.envTag
    let required := isRequired f.envTag
    match provider key with
    | .error err =>
      if required then ⟨f, some key, some (.getValue f.Name err)⟩
      else ⟨f, some key, none⟩
    | .ok envValue =>
      if envValue = "" ∧ required = true then ⟨f, some key, some (.requiredMissing key)⟩
      else
        match setField L f.kind f.Name envValue with
        | .error e => ⟨f, some key, some e⟩
        | .ok v => ⟨{ f with value := v }, some key, none⟩

/-- The state of the struct after the loop, the keys given to the provider in order,
and the error returned. -/
structure LoopResult (F C : Type) where
  fields : List (Field F C)
  calls : List String
  err : Option BindError
  deriving DecidableEq

/-- The loop of `BindStruct` over the fields in declaration order: an iteration that
returns an error ends the loop, leaving the remaining fields as they are. -/
def bindFields {F C : Type} (L : GoLib F C) (provider : dataProvider) :
    List (Field F C) → LoopResult F C
  | [] => ⟨[], [], none⟩
  | f :: rest =>
    let s := bindField L provider f
    match s.err with
    | some e => ⟨s.field :: rest, s.call.toList, some e⟩
    | none =>
      let r := bindFields L provider rest
      ⟨s.field :: r.fields, s.call.toList ++ r.calls, r.err⟩

/-- The outcome of a call of `BindStruct`: the target after the call, the keys given to
the provider in order, and the error returned (none for `nil`). -/
structure BindResult (F C : Type) where
  config : Target F C
  calls : List String
  err : Option BindError
  deriving DecidableEq

/-- The outcome of the call when the loop over the fields of the struct gave `r`. -/
def ofLoop {F C : Type} (r : LoopResult F C) : BindResult F C :=
  ⟨.structPtr r.fields, r.calls, r.err⟩

/-- `BindStruct(config, provider)`. -/
def BindStruct {F C : Type} (L : GoLib F C) (config : Target F C)
    (provider : dataProvider) : BindResult F C :=
  match config with
  | .other => ⟨.other, [], some .notStructPointer⟩
  | .structPtr fields => ofLoop (bindFields L provider fields)

/-! ## loader.go -/

/-- `unicode.IsSpace`. -/
def isSpace (c : Char) : Bool :=
  decide (c.toNat = 9 ∨ c.toNat = 10 ∨ c.toNat = 11 ∨ c.toNat = 12 ∨ c.toNat = 13
    ∨ c.toNat = 32 ∨ c.toNat = 133 ∨ c.toNat = 160 ∨ c.toNat = 5760
    ∨ (8192 ≤ c.toNat ∧ c.toNat ≤ 8202) ∨ c.toNat = 8232 ∨ c.toNat = 8233
    ∨ c.toNat = 8239 ∨ c.toNat = 8287 ∨ c.toNat = 12288)

/-- `strings.TrimSpace` on character lists. -/
def trimChars (l : List Char) : List Char :=
  ((l.dropWhile isSpace).reverse.dropWhile isSpace).reverse

/-- `strings.TrimSpace`. -/
def TrimSpace (s : String) : String := String.mk (trimChars s.data)

/-- `strings.HasPrefix`. -/
def HasPrefix (s pre : String) : Bool := pre.data.isPrefixOf s.data

/-- `strings.Cut` on character lists, for a separator of one character: the text before
and after the first occurrence of the separator, none when it does not occur. -/
def cutChars (sep : Char) : List Char → Option (List Char × List Char)
  | [] => none
  | c :: cs =>
    if c = sep then some ([], cs)
    else
      match cutChars sep cs with
      | none => none
      | some (a, b) => some (c :: a, b)

/-- `strings.SplitN` on character lists, for a separator of one character and `n >= 0`:
at most `n` pieces, the last one being the unsplit rest. -/
def splitNChars (sep : Char) : Nat → List Char → List (List Char)
  | 0, _ => []
  | 1, l => [l]
  | n + 2, l =>
    match cutChars sep l with
    | none => [l]
    | some (a, b) => a :: splitNChars sep (n + 1) b

/-- `strings.SplitN(s, sep, n)` for a separator of one character and `n >= 0`. -/
def SplitN (s : String) (sep : Char) (n : Nat) : List String :=
  (splitNChars sep n s.data).map String.mk

/-- The process environment: the value of each variable that is set. -/
abbrev Environ := String → Option String

/-- Whether `os.Setenv(key, value)` succeeds (`syscall.Setenv` on Unix returns `EINVAL`
for an empty key, for a key with `=` or a NUL byte, and for a value with a NUL byte). -/
def setenvAccepts (key value : String) : Bool :=
  decide (key ≠ "") && !key.data.contains '=' && !key.data.contains (Char.ofNat 0)
    && !value.data.contains (Char.ofNat 0)

/-- The environment after `os.Setenv(key, value)`; `LoadEnvReader` drops the error
returned, so a rejected call leaves the environment as it is and goes unnoticed. -/
def Setenv (env : Environ) (key value : String) : Environ :=
  if setenvAccepts key value then fun k => if k = key then some value else env k
  else env

/-- `os.LookupEnv`: no variable has the empty name. -/
def LookupEnv (env : Environ) (key : String) : Option String :=
  if key = "" then none else env key

/-- What a `bufio.Scanner` yields from the reader given to `LoadEnvReader`: the lines
`scanner.Text()` shows while `scanner.Scan()` is true, and the error `scanner.Err()`
reports afterwards (none for `nil`). -/
structure Reader where
  lines : List String
  err : Option String

/-- A line as `bufio.ScanLines` yields it: one trailing carriage return is dropped. -/
def dropCR (l : List Char) : List Char :=
  if l.getLast? = some '\r' then l.dropLast else l

/-- The lines `bufio.ScanLines` yields for a text: the pieces between the newlines,
without a final empty piece, each without its trailing carriage return. -/
def scanLines (src : String) : List String :=
  let pieces := splitChars '\n' src.data
  let pieces := if pieces.getLast? = some [] then pieces.dropLast else pieces
  pieces.map (fun l => String.mk (dropCR l))

/-- A reader over a text held in memory (`strings.NewReader`), every line of which fits
the buffer of the scanner: all lines are yielded and no error is reported. -/
def textReader (src : String) : Reader := ⟨scanLines src, none⟩

/-- The errors `LoadEnvReader` returns, one constructor for each `fmt.Errorf` in it. -/
inductive LoadError where
  /-- The text is: invalid .env file format: LINE. -/
  | invalidFormat (line : String)
  /-- The text is: failed to read .env file: CAUSE. -/
  | readFailed (cause : String)
  deriving DecidableEq

/-- The loop of `LoadEnvReader` over the lines the scanner yields: the environment
after the loop and the error returned from inside it. -/
def loadLines : List String → Environ → Environ × Option LoadError
  | [], env => (env, none)
  | text :: rest, env =>
    let line := TrimSpace text
    if HasPrefix line "#" = true ∨ line = "" then loadLines rest env
    else
      let parts := SplitN line '=' 2
      if parts.length ≠ 2 then (env, some (.invalidFormat line))
      else
        let key := TrimSpace (parts.getD 0 "")
        let value := TrimSpace (parts.getD 1 "")
        loadLines rest (Setenv env key value)

/-- `LoadEnvReader(r)`: the environment after the call and the error returned. -/
def LoadEnvReader (r : Reader) (env : Environ) : Environ × Option LoadError :=
  match loadLines r.lines env with
  | (env1, some e) => (env1, some e)
  | (env1, none) =>
    match r.err with
    | some cause => (env1, some (.readFailed cause))
    | none => (env1, none)

/-- The provider `LoadAndBindEnvReader` hands to `BindStruct`: `os.LookupEnv`, with an
error naming the key when the variable is not set. -/
def envProvider (env : Environ) : dataProvider := fun key =>
  match LookupEnv env key with
  | some value => .ok value
  | none => .error ("environment variable " ++ key ++ " not found")

/-- An error of `LoadAndBindEnvReader`: that of the load, or that of the binding. -/
inductive CallError where
  | load (e : LoadError)
  | bind (e : BindError)
  deriving DecidableEq

/-- The outcome of `LoadAndBindEnvReader`: the environment and the target after the
call, and the error returned. -/
structure LoadBindResult (F C : Type) where
  env : Environ
  config : Target F C
  err : Option CallError

/-- `LoadAndBindEnvReader(r, dst)`. -/
def LoadAndBindEnvReader {F C : Type} (L : GoLib F C) (r : Reader) (dst : Target F C)
    (env : Environ) : LoadBindResult F C :=
  match LoadEnvReader r env with
  | (env1, some e) => ⟨env1, dst, some (.load e)⟩
  | (env1, none) =>
    let b := BindStruct L dst (envProvider env1)
    ⟨env1, b.config, b.err.map CallError.bind⟩

/-- The environment in which the listed variables are set and no other. -/
def environOf (vars : List (String × String)) : Environ := fun k => vars.lookup k

/-! ## A concrete runtime and the test fixtures -/

/-- A 64-bit runtime whose float and complex parsers accept nothing; it serves the
examples on strings, integers and booleans, where floats play no part. -/
def lib64 : GoLib Unit Unit where
  intSize := 64
  intSize_eq := Or.inr rfl
  ParseFloat := fun _ _ => .error .ErrSyntax
  ParseComplex := fun _ _ => .error .ErrSyntax
  toFloat32 := id
  toComplex64 := id
  ParseFloat_empty := fun _ => rfl
  ParseComplex_empty := fun _ => rfl

/-- The provider of `bind_test.go`: a lookup in a finite map, with the error of the test
for a missing key. -/
def mapProvider (env : List (String × String)) : dataProvider := fun key =>
  match env.lookup key with
  | some value => .ok value
  | none => .error ("environment variable " ++ key ++ " not found")

/-- The struct `Config` of `bind_test.go` at its zero value. -/
def testConfig : List (Field Unit Unit) :=
  [⟨"String", true, "STRING", .String, .str ""⟩,
   ⟨"Int", true, "INT", .Int, .int 0⟩,
   ⟨"Int8", true, "INT8", .Int8, .int 0⟩,
   ⟨"Int16", true, "INT16", .Int16, .int 0⟩,
   ⟨"Int32", true, "INT32", .Int32, .int 0⟩,
   ⟨"Int64", true, "INT64", .Int64, .int 0⟩,
   ⟨"Uint", true, "UINT", .Uint, .uint 0⟩,
   ⟨"Uint8", true, "UINT8", .Uint8, .uint 0⟩,
   ⟨"Uint16", true, "UINT16", .Uint16, .uint 0⟩,
   ⟨"Uint32", true, "UINT32", .Uint32, .uint 0⟩,
   ⟨"Uint64", true, "UINT64", .Uint64, .uint 0⟩,
   ⟨"Float32", true, "FLOAT32", .Float32, .float ()⟩,
   ⟨"Float64", true, "FLOAT64", .Float64, .float ()⟩,
   ⟨"Bool", true, "BOOL,required", .Bool, .bool false⟩,
   ⟨"Complex", true, "COMPLEX", .Complex128, .complex ()⟩]

/-- The field `Int8` of `Config`. -/
def fieldInt8 : Field Unit Unit := ⟨"Int8", true, "INT8", .Int8, .int 0⟩

/-- The field `Uint8` of `Config`. -/
def fieldUint8 : Field Unit Unit := ⟨"Uint8", true, "UINT8", .Uint8, .uint 0⟩

/-- The field `String` of `Config`. -/
def fieldString : Field Unit Unit := ⟨"String", true, "STRING", .String, .str ""⟩

/-- The field `Bool` of `Config`, required. -/
def fieldBool : Field Unit Unit := ⟨"Bool", true, "BOOL,required", .Bool, .bool false⟩

/-- A boolean field that is not required and holds true. -/
def fieldFlag : Field Unit Unit := ⟨"Flag", true, "FLAG", .Bool, .bool true⟩

/-- A field of slice type, not required. -/
def fieldList : Field Unit Unit := ⟨"List", true, "LIST", .Slice, .other⟩

/-- The field `Complex` of `Config`, of type `complex128`, holding `z`. -/
def fieldComplex {F C : Type} (z : C) : Field F C :=
  ⟨"Complex", true, "COMPLEX", .Complex128, .complex z⟩

/-- The record of the end-to-end scenarios: `String` (string, key `STRING`), `Count`
(int, key `INT`) and `Flag` (bool, key `BOOL`, required), at its zero value. -/
def scenarioConfig {F C : Type} : List (Field F C) :=
  [⟨"String", true, "STRING", .String, .str ""⟩,
   ⟨"Count", true, "INT", .Int, .int 0⟩,
   ⟨"Flag", true, "BOOL,required", .Bool, .bool false⟩]

/-! ## The taxonomy of errors and the notions the statements use -/

/-- The kinds of error of the specification. -/
inductive ErrorClass where
  | InvalidTarget
  | MissingRequired
  | CoercionError
  | UnsupportedType
  deriving DecidableEq

/-- The class of each error of `BindStruct`. A failed lookup for a required field
(`getValue`) and an empty value for a required field (`requiredMissing`) are the two
ways a required value is missing; the five parse errors are the coercion errors. -/
def BindError.errorClass : BindError → ErrorClass
  | .notStructPointer => .InvalidTarget
  | .getValue _ _ => .MissingRequired
  | .requiredMissing _ => .MissingRequired
  | .parseInt _ _ => .CoercionError
  | .parseUint _ _ => .CoercionError
  | .parseFloat _ _ => .CoercionError
  | .parseComplex _ _ => .CoercionError
  | .parseBool _ _ => .CoercionError
  | .unsupportedKind _ => .UnsupportedType

/-- The signed integer kinds. -/
def signedKind : Kind → Bool
  | .Int | .Int8 | .Int16 | .Int32 | .Int64 => true
  | _ => false

/-- The unsigned integer kinds. -/
def unsignedKind : Kind → Bool
  | .Uint | .Uint8 | .Uint16 | .Uint32 | .Uint64 | .Uintptr => true
  | _ => false

/-- The kinds with a case of their own in the switch of `BindStruct`: string, signed and
unsigned integers, floats, complex numbers and booleans. -/
def supportedKind : Kind → Bool
  | .String | .Bool | .Float32 | .Float64 | .Complex64 | .Complex128 => true
  | k => signedKind k || unsignedKind k

/-- The canonical literal of a string or integer value: the text itself for a string,
the base-10 literal for an integer. -/
def Value.literal {F C : Type} : Value F C → String
  | .str s => s
  | .int i => toString i
  | .uint n => toString n
  | _ => ""

/-- Whether `v` is a value of the type of a field of kind `k`, for the kinds whose
round trip is exact: any string for a string field, an integer of the range of the
`w` bits for a signed or unsigned integer field of `w` bits. -/
def representable {F C : Type} (L : GoLib F C) (k : Kind) : Value F C → Bool
  | .str _ => decide (k = .String)
  | .int i => signedKind k && decide (-(2 ^ (k.bits L - 1)) ≤ i ∧ i < 2 ^ (k.bits L - 1))
  | .uint n => unsignedKind k && decide (n < 2 ^ k.bits L)
  | _ => false

/-- `strings.Join` on character lists, for a separator of one character. -/
def joinChars (sep : Char) : List (List Char) → List Char
  | [] => []
  | [p] => p
  | p :: q :: rest => p ++ sep :: joinChars sep (q :: rest)

/-- `strings.Join(elems, sep)` for a separator of one character: the annotation whose
comma-separated segments are `elems` is `Join elems ','`. -/
def Join (elems : List String) (sep : Char) : String :=
  String.mk (joinChars sep (elems.map String.data))

/-- The values the fields of a struct hold, in declaration order. -/
def fieldValues {F C : Type} : Target F C → List (Value F C)
  | .structPtr fields => fields.map Field.value
  | .other => []

/-- The number a non-empty text of decimal digits denotes; none for any other text. -/
def digitsValue (cs : List Char) : Option Nat :=
  if cs ≠ [] ∧ cs.all (fun c => decide (48 ≤ c.toNat ∧ c.toNat ≤ 57)) = true then
    some (cs.foldl (fun n c => 10 * n + (c.toNat - 48)) 0)
  else none

/-- The integer a text denotes as a base-10 literal, an optional sign followed by one or
more decimal digits; none when the text is no base-10 integer at all. -/
def decimalLiteral (s : String) : Option Int :=
  match s.data with
  | [] => none
  | c :: cs =>
    if c = '-' then (digitsValue cs).map (fun (n : Nat) => - (n : Int))
    else if c = '+' then (digitsValue cs).map (fun (n : Nat) => (n : Int))
    else (digitsValue (c :: cs)).map (fun (n : Nat) => (n : Int))

/-- The line after trimming is blank or a comment: it is passed over. -/
def ignoredLine (text : String) : Bool :=
  decide ((TrimSpace text).data.head? = some '#' ∨ TrimSpace text = "")

/-- The line is neither blank nor a comment and has no `=`. -/
def malformedLine (text : String) : Bool :=
  !ignoredLine text && !(TrimSpace text).data.contains '='

/-- The key of a line: the trimmed text before the first `=` of the trimmed line. -/
def lineKey (text : String) : String :=
  TrimSpace (String.mk ((TrimSpace text).data.takeWhile (fun c => decide (c ≠ '='))))

/-- The value of a line: the trimmed text after the first `=` of the trimmed line. -/
def lineValue (text : String) : String :=
  TrimSpace (String.mk (((TrimSpace text).data.dropWhile (fun c => decide (c ≠ '='))).drop 1))

/-- The pair a line writes to the environment: none for a blank line, a comment, and a
line whose key or value the environment rejects. -/
def lineEntry (text : String) : Option (String × String) :=
  if ignoredLine text = true then none
  else if setenvAccepts (lineKey text) (lineValue text) = true then
    some (lineKey text, lineValue text)
  else none

/-- The value of the last pair with key `k` in a list of pairs. -/
def lastValue : List (String × String) → String → Option String
  | [], _ => none
  | (a, b) :: rest, k =>
    match lastValue rest k with
    | some v => some v
    | none => if k = a then some b else none

/-- A field takes part in binding when it is exported and carries an `env` tag. -/
def Field.annotated {F C : Type} (f : Field F C) : Prop :=
  f.exported = true ∧ f.envTag ≠ ""

instance {F C : Type} (f : Field F C) : Decidable f.annotated := by
  unfold Field.annotated
  infer_instance

/-- The loop result in which the fields `pre` were processed without error, the field
`f` was given the value `v`, and the loop went on over `post`. -/
def boundAt {F C : Type} (L : GoLib F C) (provider : dataProvider)
    (pre : List (Field F C)) (f : Field F C) (post : List (Field F C)) (v : Value F C) :
    LoopResult F C :=
  ⟨(bindFields L provider pre).fields ++ { f with value := v }
      :: (bindFields L provider post).fields,
    (bindFields L provider pre).calls ++ envVarName f.envTag
      :: (bindFields L provider post).calls,
    (bindFields L provider post).err⟩

/-- The loop result in which the fields `pre` were processed without error and the loop
ended at the field `f` with the error `e`, after the provider was called for `f`. -/
def failedAt {F C : Type} (L : GoLib F C) (provider : dataProvider)
    (pre : List (Field F C)) (f : Field F C) (post : List (Field F C)) (e : BindError) :
    LoopResult F C :=
  ⟨(bindFields L provider pre).fields ++ f :: post,
    (bindFields L provider pre).calls ++ [envVarName f.envTag],
    some e⟩

/-! ## The loop -/

theorem bindField_err_field {F C : Type} (L : GoLib F C) (provider : dataProvider)
    (f : Field F C) (e : BindError) (h : (bindField L provider f).err = some e) :
    (bindField L provider f).field = f ∧
      (bindField L provider f).call = some (envVarName f.envTag) := by
  unfold bindField at h ⊢
  by_cases h1 : f.exported = false
  · simp [h1] at h
  · by_cases h2 : f.envTag = ""
    · simp [h1, h2] at h
    · simp only [h1, h2, if_false] at h ⊢
      cases hp : provider (envVarName f.envTag) with
      | error c =>
        simp only [hp] at h ⊢
        by_cases hr : isRequired f.envTag = true <;> simp [hr] at h ⊢
      | ok v =>
        simp only [hp] at h ⊢
        by_cases hr : v = "" ∧ isRequired f.envTag = true
        · simp [hr]
        · simp only [hr, if_false] at h ⊢
          cases hv : setField L f.kind f.Name v with
          | error e2 => simp
          | ok w => simp [hv] at h

theorem bindFields_cons {F C : Type} (L : GoLib F C) (provider : dataProvider)
    (f : Field F C) (rest : List (Field F C)) :
    bindFields L provider (f :: rest) =
      match (bindField L provider f).err with
      | some e => ⟨(bindField L provider f).field :: rest,
          (bindField L provider f).call.toList, some e⟩
      | none =>
        ⟨(bindField L provider f).field :: (bindFields L provider rest).fields,
          (bindField L provider f).call.toList ++ (bindFields L provider rest).calls,
          (bindFields L provider rest).err⟩ := rfl

theorem bindFields_append {F C : Type} (L : GoLib F C) (provider : dataProvider)
    (pre post : List (Field F C)) :
    bindFields L provider (pre ++ post) =
      match (bindFields L provider pre).err with
      | some e =>
        ⟨(bindFields L provider pre).fields ++ post, (bindFields L provider pre).calls,
          some e⟩
      | none =>
        ⟨(bindFields L provider pre).fields ++ (bindFields L provider post).fields,
          (bindFields L provider pre).calls ++ (bindFields L provider post).calls,
          (bindFields L provider post).err⟩ := by
  induction pre with
  | nil => simp [bindFields]
  | cons f rest ih =>
    rw [List.cons_append, bindFields_cons, bindFields_cons, ih]
    cases hs : (bindField L provider f).err with
    | some e => simp
    | none => cases hr : (bindFields L provider rest).err <;> simp

theorem bindFields_length {F C : Type} (L : GoLib F C) (provider : dataProvider)
    (fs : List (Field F C)) : (bindFields L provider fs).fields.length = fs.length := by
  induction fs with
  | nil => simp [bindFields]
  | cons f rest ih =>
    rw [bindFields_cons]
    cases hs : (bindField L provider f).err <;> simp [ih]

theorem bindFields_cons_ok {F C : Type} (L : GoLib F C) (provider : dataProvider)
    (f : Field F C) (post : List (Field F C)) (h : (bindField L provider f).err = none) :
    bindFields L provider (f :: post) =
      ⟨(bindField L provider f).field :: (bindFields L provider post).fields,
        (bindField L provider f).call.toList ++ (bindFields L provider post).calls,
        (bindFields L provider post).err⟩ := by
  rw [bindFields_cons, h]

theorem bindFields_cons_err {F C : Type} (L : GoLib F C) (provider : dataProvider)
    (f : Field F C) (post : List (Field F C)) (e : BindError)
    (h : (bindField L provider f).err = some e) :
    bindFields L provider (f :: post) = ⟨f :: post, [envVarName f.envTag], some e⟩ := by
  have hf := bindField_err_field L provider f e h
  rw [bindFields_cons, h]
  simp [hf.1, hf.2]

/-- When the fields before `f` bind without error and the iteration for `f` stores `v`,
the loop over `pre ++ f :: post` is `boundAt`. -/
theorem bindFields_boundAt {F C : Type} (L : GoLib F C) (provider : dataProvider)
    (pre : List (Field F C)) (f : Field F C) (post : List (Field F C)) (v : Value F C)
    (hpre : (bindFields L provider pre).err = none)
    (hf : bindField L provider f = ⟨{ f with value := v }, some (envVarName f.envTag), none⟩) :
    bindFields L provider (pre ++ f :: post) = boundAt L provider pre f post v := by
  rw [bindFields_append, hpre, bindFields_cons_ok L provider f post (by rw [hf])]
  simp [boundAt, hf]

/-- When the fields before `f` bind without error and the iteration for `f` returns the
error `e`, the loop over `pre ++ f :: post` is `failedAt`. -/
theorem bindFields_failedAt {F C : Type} (L : GoLib F C) (provider : dataProvider)
    (pre : List (Field F C)) (f : Field F C) (post : List (Field F C)) (e : BindError)
    (hpre : (bindFields L provider pre).err = none)
    (hf : (bindField L provider f).err = some e) :
    bindFields L provider (pre ++ f :: post) = failedAt L provider pre f post e := by
  rw [bindFields_append, hpre, bindFields_cons_err L provider f post e hf]
  simp [failedAt]

theorem BindStruct_structPtr {F C : Type} (L : GoLib F C) (provider : dataProvider)
    (fs : List (Field F C)) :
    BindStruct L (.structPtr fs) provider = ofLoop (bindFields L provider fs) := rfl

/-! ## One iteration -/

theorem bindField_required_absent {F C : Type} (L : GoLib F C) (provider : dataProvider)
    (f : Field F C) (cause : String) (hann : f.annotated)
    (hreq : isRequired f.envTag = true)
    (hlook : provider (envVarName f.envTag) = .error cause) :
    bindField L provider f =
      ⟨f, some (envVarName f.envTag), some (.getValue f.Name cause)⟩ := by
  obtain ⟨h1, h2⟩ := hann
  simp [bindField, h1, h2, hlook, hreq]

theorem bindField_optional_absent {F C : Type} (L : GoLib F C) (provider : dataProvider)
    (f : Field F C) (cause : String) (hann : f.annotated)
    (hreq : isRequired f.envTag = false)
    (hlook : provider (envVarName f.envTag) = .error cause) :
    bindField L provider f = ⟨f, some (envVarName f.envTag), none⟩ := by
  obtain ⟨h1, h2⟩ := hann
  simp [bindField, h1, h2, hlook, hreq]

theorem bindField_required_empty {F C : Type} (L : GoLib F C) (provider : dataProvider)
    (f : Field F C) (hann : f.annotated) (hreq : isRequired f.envTag = true)
    (hlook : provider (envVarName f.envTag) = .ok "") :
    bindField L provider f =
      ⟨f, some (envVarName f.envTag), some (.requiredMissing (envVarName f.envTag))⟩ := by
  obtain ⟨h1, h2⟩ := hann
  simp [bindField, h1, h2, hlook, hreq]

theorem bindField_found {F C : Type} (L : GoLib F C) (provider : dataProvider)
    (f : Field F C) (v : String) (hann : f.annotated)
    (hlook : provider (envVarName f.envTag) = .ok v)
    (hval : v = "" → isRequired f.envTag = false) :
    bindField L provider f =
      match setField L f.kind f.Name v with
      | .error e => ⟨f, some (envVarName f.envTag), some e⟩
      | .ok w => ⟨{ f with value := w }, some (envVarName f.envTag), none⟩ := by
  obtain ⟨h1, h2⟩ := hann
  have h3 : ¬ (v = "" ∧ isRequired f.envTag = true) := by
    intro h
    rw [hval h.1] at h
    exact Bool.noConfusion h.2
  simp only [bindField, h1, h2, hlook, h3]
  simp

/-! ## Required fields -/

/-- C1, as stated, fails: in the struct with the fields `Int8` and `Bool` (required) of
the test, with `INT8` bound to the text `abc` and `BOOL` not found, the required field
`Bool` is absent, yet the error returned is the parse error of the earlier field `Int8`,
which is a coercion error and not a missing-required error. -/
theorem C1_counterexample :
    fieldBool.annotated ∧ isRequired fieldBool.envTag = true ∧
    mapProvider [("INT8", "abc")] (envVarName fieldBool.envTag)
      = .error "environment variable BOOL not found" ∧
    (BindStruct lib64 (.structPtr [fieldInt8, fieldBool])
      (mapProvider [("INT8", "abc")])).err = some (.parseInt "Int8" .ErrSyntax) ∧
    ¬ (∃ e, (BindStruct lib64 (.structPtr [fieldInt8, fieldBool])
      (mapProvider [("INT8", "abc")])).err = some e ∧ e.errorClass = .MissingRequired) := by
  refine ⟨by decide, by decide, by decide, by decide, ?_⟩
  rintro ⟨e, he, hc⟩
  have h : (BindStruct lib64 (.structPtr [fieldInt8, fieldBool])
      (mapProvider [("INT8", "abc")])).err = some (.parseInt "Int8" .ErrSyntax) := by decide
  rw [h] at he
  cases he
  exact absurd hc (by decide)

/-- C1, as amended: when an annotated required field `f` has a lookup key for which the
provider reports an error (not found), `BindStruct` returns an error whatever the
provider returns for the other fields; and when the fields before `f` bind without
error, the call ends at `f`, with the fields from `f` on unchanged, and the error is
the lookup failure of `f`, which carries the name of the field and the error of the
provider and is of class MissingRequired. -/
theorem C1_required_absent_fails {F C : Type} (L : GoLib F C) (provider : dataProvider)
    (pre : List (Field F C)) (f : Field F C) (post : List (Field F C)) (cause : String)
    (hann : f.annotated) (hreq : isRequired f.envTag = true)
    (hlook : provider (envVarName f.envTag) = .error cause) :
    (∃ e, (BindStruct L (.structPtr (pre ++ f :: post)) provider).err = some e) ∧
    ((bindFields L provider pre).err = none →
      BindStruct L (.structPtr (pre ++ f :: post)) provider
          = ofLoop (failedAt L provider pre f post (.getValue f.Name cause)) ∧
        (BindError.getValue f.Name cause).errorClass = .MissingRequired) := by
  have hf := bindField_required_absent L provider f cause hann hreq hlook
  have hferr : (bindField L provider f).err = some (.getValue f.Name cause) := by rw [hf]
  constructor
  · rw [BindStruct_structPtr, bindFields_append]
    cases hpre : (bindFields L provider pre).err with
    | some e => exact ⟨e, rfl⟩
    | none =>
      rw [bindFields_cons_err L provider f post _ hferr]
      exact ⟨_, rfl⟩
  · intro hpre
    rw [BindStruct_structPtr, bindFields_failedAt L provider pre f post _ hpre hferr]
    exact ⟨rfl, rfl⟩

/-- The case `TestRequired` of the test: with an empty environment the required field
`Bool` of `Config` is absent and the call fails at it. -/
theorem C1_required_absent_fails_witness :
    (∃ e, (BindStruct lib64 (.structPtr (testConfig.take 13 ++ fieldBool :: testConfig.drop 14))
      (mapProvider [])).err = some e) ∧
    ((bindFields lib64 (mapProvider []) (testConfig.take 13)).err = none →
      BindStruct lib64 (.structPtr (testConfig.take 13 ++ fieldBool :: testConfig.drop 14))
          (mapProvider [])
        = ofLoop (failedAt lib64 (mapProvider []) (testConfig.take 13) fieldBool
            (testConfig.drop 14)
            (.getValue fieldBool.Name "environment variable BOOL not found")) ∧
        (BindError.getValue fieldBool.Name
          "environment variable BOOL not found").errorClass = .MissingRequired) :=
  C1_required_absent_fails lib64 (mapProvider []) (testConfig.take 13) fieldBool
    (testConfig.drop 14) "environment variable BOOL not found"
    (by decide) (by decide) (by decide)

/-- C2: when an annotated required field `f`, of any kind, gets the empty string as a
found value and the fields before it bind without error, `BindStruct` ends at `f` with
the error `requiredMissing`, of class MissingRequired, and `f` and the fields after it
are left as they were. -/
theorem C2_required_empty_fails {F C : Type} (L : GoLib F C) (provider : dataProvider)
    (pre : List (Field F C)) (f : Field F C) (post : List (Field F C))
    (hann : f.annotated) (hreq : isRequired f.envTag = true)
    (hlook : provider (envVarName f.envTag) = .ok "")
    (hpre : (bindFields L provider pre).err = none) :
    BindStruct L (.structPtr (pre ++ f :: post)) provider
        = ofLoop (failedAt L provider pre f post (.requiredMissing (envVarName f.envTag))) ∧
      (BindError.requiredMissing (envVarName f.envTag)).errorClass = .MissingRequired := by
  have hf := bindField_required_empty L provider f hann hreq hlook
  have hferr : (bindField L provider f).err
      = some (.requiredMissing (envVarName f.envTag)) := by rw [hf]
  rw [BindStruct_structPtr, bindFields_failedAt L provider pre f post _ hpre hferr]
  exact ⟨rfl, rfl⟩

/-- With `BOOL` found and empty, the required field `Bool` of `Config` fails as missing
and stays false. -/
theorem C2_required_empty_fails_witness :
    BindStruct lib64 (.structPtr (testConfig.take 13 ++ fieldBool :: testConfig.drop 14))
        (mapProvider [("BOOL", "")])
      = ofLoop (failedAt lib64 (mapProvider [("BOOL", "")]) (testConfig.take 13) fieldBool
          (testConfig.drop 14) (.requiredMissing (envVarName fieldBool.envTag))) ∧
      (BindError.requiredMissing (envVarName fieldBool.envTag)).errorClass
        = .MissingRequired :=
  C2_required_empty_fails lib64 (mapProvider [("BOOL", "")]) (testConfig.take 13) fieldBool
    (testConfig.drop 14) (by decide) (by decide) (by decide) (by decide)


theorem digitOf_digitChar (d : Nat) (h : d < 10) : digitOf (Nat.digitChar d) = some d := by
  interval_cases d <;> decide

theorem digitChar_isDigit (d : Nat) (h : d < 10) :
    48 ≤ (Nat.digitChar d).toNat ∧ (Nat.digitChar d).toNat ≤ 57 := by
  interval_cases d <;> decide

theorem ParseUintLoop_digit (maxVal : Nat) (cs : List Char) (n : Nat) (hn : n ≤ maxUint64)
    (hm : n ≤ maxVal) :
    ParseUintLoop 10 maxVal (Nat.digitChar (n % 10) :: cs) (n / 10)
      = ParseUintLoop 10 maxVal cs n := by
  have hd := digitOf_digitChar (n % 10) (Nat.mod_lt _ (by decide))
  have h1 : ¬ (n % 10 ≥ 10) := by omega
  have h2 : ¬ (n / 10 ≥ maxUint64 / 10 + 1) := by
    unfold maxUint64 at hn ⊢
    omega
  have h3 : (n / 10 * 10 + n % 10) % 18446744073709551616 = n := by
    unfold maxUint64 at hn
    omega
  have h4 : ¬ (n < n / 10 * 10 ∨ n > maxVal) := by omega
  rw [ParseUintLoop]
  simp only [hd, h1, h2, h3, h4, if_false]

theorem ParseUintLoop_toDigitsCore (maxVal : Nat) (fuel : Nat) :
    ∀ (n : Nat) (ds : List Char), n < fuel → n ≤ maxUint64 → n ≤ maxVal →
      ParseUintLoop 10 maxVal (Nat.toDigitsCore 10 fuel n ds) 0
        = ParseUintLoop 10 maxVal ds n := by
  induction fuel with
  | zero => intro n ds h; omega
  | succ fuel ih =>
    intro n ds hfuel hn hm
    rw [Nat.toDigitsCore]
    by_cases h0 : n / 10 = 0
    · simp only [h0, if_true]
      have := ParseUintLoop_digit maxVal ds n hn hm
      rwa [h0] at this
    · simp only [h0, if_false]
      rw [ih (n / 10) _ (by omega) (by omega) (by omega)]
      exact ParseUintLoop_digit maxVal ds n hn hm

theorem toDigitsCore_ne_nil (fuel n : Nat) (ds : List Char) (h : n < fuel) :
    Nat.toDigitsCore 10 fuel n ds ≠ [] := by
  induction fuel generalizing n ds with
  | zero => omega
  | succ fuel ih =>
    rw [Nat.toDigitsCore]
    by_cases h0 : n / 10 = 0
    · simp [h0]
    · simp only [h0, if_false]
      exact ih _ _ (by omega)

theorem toDigitsCore_digits (fuel : Nat) :
    ∀ (n : Nat) (ds : List Char), ∀ c ∈ Nat.toDigitsCore 10 fuel n ds,
      c ∈ ds ∨ (48 ≤ c.toNat ∧ c.toNat ≤ 57) := by
  induction fuel with
  | zero => intro n ds c hc; left; simpa [Nat.toDigitsCore] using hc
  | succ fuel ih =>
    intro n ds c hc
    rw [Nat.toDigitsCore] at hc
    by_cases h0 : n / 10 = 0
    · simp only [h0, if_true, List.mem_cons] at hc
      rcases hc with rfl | hc
      · right; exact digitChar_isDigit _ (Nat.mod_lt _ (by decide))
      · left; exact hc
    · simp only [h0, if_false] at hc
      rcases ih _ _ c hc with h | h
      · rcases List.mem_cons.mp h with rfl | h
        · right; exact digitChar_isDigit _ (Nat.mod_lt _ (by decide))
        · left; exact h
      · right; exact h

theorem repr_data (n : Nat) : (toString n).data = Nat.toDigits 10 n := rfl

theorem ParseUint_toString (n : Nat) (bitSize : Nat) (hn : n ≤ maxUint64)
    (hm : n ≤ 2 ^ bitSize - 1) :
    ParseUint (toString n) 10 bitSize = .ok n := by
  have hne : toString n ≠ "" := by
    intro h
    have := congrArg String.data h
    rw [repr_data] at this
    exact toDigitsCore_ne_nil (n + 1) n [] (by omega) this
  unfold ParseUint
  rw [if_neg hne, repr_data, Nat.toDigits, ParseUintLoop_toDigitsCore _ _ _ _ (by omega) hn hm]
  rfl


theorem toString_digits (n : Nat) : ∀ c ∈ (toString n).data, 48 ≤ c.toNat ∧ c.toNat ≤ 57 := by
  intro c hc
  rw [repr_data, Nat.toDigits] at hc
  rcases toDigitsCore_digits _ _ _ c hc with h | h
  · simp at h
  · exact h

theorem ParseInt_toString_ofNat (m : Nat) (h : m < 2 ^ 63) :
    ParseInt (toString m) 10 64 = .ok (m : Int) := by
  have hp := ParseUint_toString m 64 (by unfold maxUint64; omega) (by omega)
  have hd := toString_digits m
  unfold ParseInt
  cases hs : (toString m).data with
  | nil =>
    exfalso
    rw [repr_data] at hs
    exact toDigitsCore_ne_nil (m + 1) m [] (by omega) hs
  | cons c cs =>
    have hc := hd c (by rw [hs]; exact List.mem_cons_self _ _)
    have hplus : c ≠ '+' := by
      intro h; rw [h] at hc; revert hc; decide
    have hminus : c ≠ '-' := by
      intro h; rw [h] at hc; revert hc; decide
    have hmk : String.mk (c :: cs) = toString m := by rw [← hs]
    simp only [hplus, hminus, or_self, if_false, hmk, hp, decide_False]
    have : ¬ (m ≥ 2 ^ (64 - 1)) := by omega
    simp
    omega

theorem ParseInt_toString_neg (m : Nat) (h : m + 1 ≤ 2 ^ 63) :
    ParseInt ("-" ++ toString (m + 1)) 10 64 = .ok (Int.negSucc m) := by
  have hp := ParseUint_toString (m + 1) 64 (by unfold maxUint64; omega) (by omega)
  have hs : ("-" ++ toString (m + 1)).data = '-' :: (toString (m + 1)).data := rfl
  unfold ParseInt
  rw [hs]
  have hmk : String.mk (toString (m + 1)).data = toString (m + 1) := rfl
  simp only [or_true, if_true, hmk, hp, decide_True]
  simp [Int.negSucc_eq]
  omega

theorem ParseInt_toString (i : Int) (h1 : -(2 ^ 63) ≤ i) (h2 : i < 2 ^ 63) :
    ParseInt (toString i) 10 64 = .ok i := by
  cases i with
  | ofNat m =>
    have : toString (Int.ofNat m) = toString m := rfl
    rw [this]
    exact ParseInt_toString_ofNat m (by simpa using h2)
  | negSucc m =>
    have : toString (Int.negSucc m) = "-" ++ toString (m + 1) := rfl
    rw [this]
    exact ParseInt_toString_neg m (by rw [Int.negSucc_eq] at h1; omega)

theorem wrapSigned_of_range (w : Nat) (i : Int) (hw : 1 ≤ w) (h1 : -(2 ^ (w - 1)) ≤ i)
    (h2 : i < 2 ^ (w - 1)) : wrapSigned w i = i := by
  obtain ⟨k, rfl⟩ : ∃ k, w = k + 1 := ⟨w - 1, by omega⟩
  simp only [Nat.add_sub_cancel] at h1 h2
  have hpow : (2 : Int) ^ (k + 1) = 2 * 2 ^ k := by ring
  have hpos : (0 : Int) < 2 ^ k := by positivity
  unfold wrapSigned
  simp only [Nat.add_sub_cancel, hpow]
  by_cases hi : 0 ≤ i
  · have : i % (2 * 2 ^ k) = i := Int.emod_eq_of_lt hi (by omega)
    rw [this, if_neg (by omega)]
  · have : i % (2 * 2 ^ k) = i + 2 * 2 ^ k := by
      rw [← Int.add_emod_self]
      exact Int.emod_eq_of_lt (by omega) (by omega)
    rw [this, if_pos (by omega)]
    omega

theorem setField_signed {F C : Type} (L : GoLib F C) (k : Kind) (name s : String)
    (hk : signedKind k = true) :
    setField L k name s =
      match ParseInt s 10 64 with
      | .error err => .error (.parseInt name err)
      | .ok val => .ok (SetInt L k val) := by
  cases k <;> first | rfl | exact absurd hk (by decide)

theorem setField_unsigned {F C : Type} (L : GoLib F C) (k : Kind) (name s : String)
    (hk : unsignedKind k = true) :
    setField L k name s =
      match ParseUint s 10 64 with
      | .error err => .error (.parseUint name err)
      | .ok val => .ok (SetUint L k val) := by
  cases k <;> first | rfl | exact absurd hk (by decide)

theorem bits_of_integer {F C : Type} (L : GoLib F C) (k : Kind)
    (hk : signedKind k = true ∨ unsignedKind k = true) :
    k.bits L = 8 ∨ k.bits L = 16 ∨ k.bits L = 32 ∨ k.bits L = 64 := by
  have hL := L.intSize_eq
  cases k <;> simp [signedKind, unsignedKind, Kind.bits] at hk ⊢ <;> omega

/-! ## Integers and strings -/

/-- C3, the failing inputs: the text `300` bound to the `int8` field of the test struct
is accepted and the field holds 44, and the text `256` bound to the `uint8` field is
accepted and the field holds 0; in both cases no error is returned. The parsers are
called with bit size 64 whatever the width of the field, and the setter keeps the low
bits. -/
theorem C3_narrow_integer_wraps :
    BindStruct lib64 (.structPtr [fieldInt8]) (mapProvider [("INT8", "300")])
      = ⟨.structPtr [{ fieldInt8 with value := .int 44 }], ["INT8"], none⟩ ∧
    BindStruct lib64 (.structPtr [fieldUint8]) (mapProvider [("UINT8", "256")])
      = ⟨.structPtr [{ fieldUint8 with value := .uint 0 }], ["UINT8"], none⟩ := by
  constructor <;> decide

/-- C4: round trip for the exact kinds. When the fields before `f` bind without error
and the provider returns, for the key of the annotated field `f`, the literal of a value
`v` of the type of `f` (any string for a string field, taken as it is; the base-10
literal of an integer of the range of the field for an integer field), the field is
bound to exactly `v`, no error arises from it, and the loop goes on. For a required
field the literal must not be empty, which only excludes the empty string. -/
theorem C4_round_trip_exact {F C : Type} (L : GoLib F C) (provider : dataProvider)
    (pre : List (Field F C)) (f : Field F C) (post : List (Field F C)) (v : Value F C)
    (hann : f.annotated)
    (hpre : (bindFields L provider pre).err = none)
    (hrep : representable L f.kind v = true)
    (hlook : provider (envVarName f.envTag) = .ok v.literal)
    (hreq : isRequired f.envTag = true → v.literal ≠ "") :
    BindStruct L (.structPtr (pre ++ f :: post)) provider
      = ofLoop (boundAt L provider pre f post v) := by
  have hval : v.literal = "" → isRequired f.envTag = false := by
    intro h
    cases hr : isRequired f.envTag
    · rfl
    · exact absurd h (hreq hr)
  have hf := bindField_found L provider f v.literal hann hlook hval
  rw [BindStruct_structPtr]
  congr 1
  apply bindFields_boundAt L provider pre f post v hpre
  rw [hf]
  cases v with
  | str s =>
    have hk : f.kind = .String := by simpa [representable] using hrep
    rw [hk]
    rfl
  | int i =>
    simp only [representable, Bool.and_eq_true, decide_eq_true_eq] at hrep
    obtain ⟨hk, h1, h2⟩ := hrep
    have hb := bits_of_integer L f.kind (Or.inl hk)
    have hw : wrapSigned (f.kind.bits L) i = i :=
      wrapSigned_of_range _ i (by omega) h1 h2
    have hp : ParseInt (toString i) 10 64 = .ok i := by
      apply ParseInt_toString
      · rcases hb with h | h | h | h <;> rw [h] at h1 <;> norm_num at h1 ⊢ <;> omega
      · rcases hb with h | h | h | h <;> rw [h] at h2 <;> norm_num at h2 ⊢ <;> omega
    rw [setField_signed L f.kind f.Name _ hk]
    simp only [Value.literal, hp, SetInt, hw]
  | uint n =>
    simp only [representable, Bool.and_eq_true, decide_eq_true_eq] at hrep
    obtain ⟨hk, h1⟩ := hrep
    have hb := bits_of_integer L f.kind (Or.inr hk)
    have hw : wrapUnsigned (f.kind.bits L) n = n := Nat.mod_eq_of_lt h1
    have hp : ParseUint (toString n) 10 64 = .ok n := by
      apply ParseUint_toString
      · unfold maxUint64
        rcases hb with h | h | h | h <;> rw [h] at h1 <;> norm_num at h1 ⊢ <;> omega
      · rcases hb with h | h | h | h <;> rw [h] at h1 <;> norm_num at h1 ⊢ <;> omega
    rw [setField_unsigned L f.kind f.Name _ hk]
    simp only [Value.literal, hp, SetUint, hw]
  | float x => simp [representable] at hrep
  | complex z => simp [representable] at hrep
  | bool b => simp [representable] at hrep
  | other => simp [representable] at hrep

/-- The `int8` field of the test struct bound to the literal of -128, after the field
`String` bound to a text with surrounding blanks, which is kept as it is. -/
theorem C4_round_trip_exact_witness :
    BindStruct lib64 (.structPtr ([fieldString] ++ fieldInt8 :: [fieldBool]))
        (mapProvider [("STRING", " a b "), ("INT8", "-128"), ("BOOL", "on")])
      = ofLoop (boundAt lib64
          (mapProvider [("STRING", " a b "), ("INT8", "-128"), ("BOOL", "on")])
          [fieldString] fieldInt8 [fieldBool] (.int (-128))) :=
  C4_round_trip_exact lib64
    (mapProvider [("STRING", " a b "), ("INT8", "-128"), ("BOOL", "on")])
    [fieldString] fieldInt8 [fieldBool] (.int (-128))
    (by decide) (by decide) (by decide) (by decide) (by decide)

/-- A found value that the switch accepts is stored and the loop goes on. -/
theorem BindStruct_found_ok {F C : Type} (L : GoLib F C) (provider : dataProvider)
    (pre : List (Field F C)) (f : Field F C) (post : List (Field F C)) (v : String)
    (w : Value F C) (hann : f.annotated)
    (hpre : (bindFields L provider pre).err = none)
    (hlook : provider (envVarName f.envTag) = .ok v)
    (hval : v = "" → isRequired f.envTag = false)
    (hset : setField L f.kind f.Name v = .ok w) :
    BindStruct L (.structPtr (pre ++ f :: post)) provider
      = ofLoop (boundAt L provider pre f post w) := by
  rw [BindStruct_structPtr]
  congr 1
  apply bindFields_boundAt L provider pre f post w hpre
  rw [bindField_found L provider f v hann hlook hval, hset]

/-- A found value that the switch rejects ends the loop with the error of the switch. -/
theorem BindStruct_found_err {F C : Type} (L : GoLib F C) (provider : dataProvider)
    (pre : List (Field F C)) (f : Field F C) (post : List (Field F C)) (v : String)
    (e : BindError) (hann : f.annotated)
    (hpre : (bindFields L provider pre).err = none)
    (hlook : provider (envVarName f.envTag) = .ok v)
    (hval : v = "" → isRequired f.envTag = false)
    (hset : setField L f.kind f.Name v = .error e) :
    BindStruct L (.structPtr (pre ++ f :: post)) provider
      = ofLoop (failedAt L provider pre f post e) := by
  rw [BindStruct_structPtr]
  congr 1
  apply bindFields_failedAt L provider pre f post e hpre
  rw [bindField_found L provider f v hann hlook hval, hset]

theorem setField_Bool {F C : Type} (L : GoLib F C) (name v : String) :
    setField L .Bool name v =
      if v ∈ truthyLiterals then .ok (.bool true)
      else if v ∈ falsyLiterals then .ok (.bool false)
      else if v ∈ strconvTrue then .ok (.bool true)
      else if v ∈ strconvFalse then .ok (.bool false)
      else .error (.parseBool name .ErrSyntax) := by
  simp only [setField, ParseBool]
  split_ifs <;> rfl

/-! ## Booleans -/

/-- C5, as stated, fails: `ON` equals the truthy word `on` when letter case is ignored,
and `OFF` the falsy word `off`, yet binding either to a boolean field returns the parse
error of the strict fallback and leaves the field as it was. -/
theorem C5_counterexample :
    "ON".data.map Char.toLower = "on".data ∧
    "OFF".data.map Char.toLower = "off".data ∧
    BindStruct lib64 (.structPtr [fieldFlag]) (mapProvider [("FLAG", "ON")])
      = ⟨.structPtr [fieldFlag], ["FLAG"], some (.parseBool "Flag" .ErrSyntax)⟩ ∧
    BindStruct lib64 (.structPtr [fieldFlag]) (mapProvider [("FLAG", "OFF")])
      = ⟨.structPtr [fieldFlag], ["FLAG"], some (.parseBool "Flag" .ErrSyntax)⟩ := by
  refine ⟨by decide, by decide, by decide, by decide⟩

/-- C5, as amended: the vocabulary is matched exactly. When the fields before the
annotated boolean field `f` bind without error and the found value is, letter for
letter, one of `Y`, `y`, `Yes`, `YES`, `yes`, `on`, the field is set to true, and when
it is one of `N`, `n`, `No`, `NO`, `no`, `off`, the field is set to false; in both
cases no error arises from the field. -/
theorem C5_vocabulary_exact {F C : Type} (L : GoLib F C) (provider : dataProvider)
    (pre : List (Field F C)) (f : Field F C) (post : List (Field F C)) (v : String)
    (hann : f.annotated) (hkind : f.kind = .Bool)
    (hpre : (bindFields L provider pre).err = none)
    (hlook : provider (envVarName f.envTag) = .ok v) :
    (v ∈ truthyLiterals →
      BindStruct L (.structPtr (pre ++ f :: post)) provider
        = ofLoop (boundAt L provider pre f post (.bool true))) ∧
    (v ∈ falsyLiterals →
      BindStruct L (.structPtr (pre ++ f :: post)) provider
        = ofLoop (boundAt L provider pre f post (.bool false))) := by
  constructor
  · intro hv
    have hval : v = "" → isRequired f.envTag = false := by
      intro h; rw [h] at hv; exact absurd hv (by decide)
    apply BindStruct_found_ok L provider pre f post v _ hann hpre hlook hval
    rw [hkind, setField_Bool, if_pos hv]
  · intro hv
    have hval : v = "" → isRequired f.envTag = false := by
      intro h; rw [h] at hv; exact absurd hv (by decide)
    have hnt : v ∉ truthyLiterals := by
      intro ht
      simp only [truthyLiterals, falsyLiterals, List.mem_cons, List.mem_singleton,
        List.not_mem_nil, or_false] at ht hv
      rcases ht with h | h | h | h | h | h <;> rw [h] at hv <;> revert hv <;> decide
    apply BindStruct_found_ok L provider pre f post v _ hann hpre hlook hval
    rw [hkind, setField_Bool, if_neg hnt, if_pos hv]

/-- The case `BoolFalseValues` of the test: `BOOL` bound to `n` sets the field `Bool`
of `Config` to false. -/
theorem C5_vocabulary_exact_witness :
    BindStruct lib64 (.structPtr (testConfig.take 13 ++ fieldBool :: testConfig.drop 14))
        (mapProvider [("BOOL", "n")])
      = ofLoop (boundAt lib64 (mapProvider [("BOOL", "n")]) (testConfig.take 13) fieldBool
          (testConfig.drop 14) (.bool false)) :=
  (C5_vocabulary_exact lib64 (mapProvider [("BOOL", "n")]) (testConfig.take 13) fieldBool
    (testConfig.drop 14) "n" (by decide) (by decide) (by decide) (by decide)).2 (by decide)

/-- C6: the table of boolean literals. When the fields before the annotated boolean
field `f` bind without error: each of `Y`, `y`, `Yes`, `YES`, `yes`, `on` and `true`
sets the field to true; each of `N`, `n`, `No`, `NO`, `no`, `off` sets it to false,
whatever it held before; and `maybe` ends the call with the parse error of the field, a
coercion error, the field being left as it was. -/
theorem C6_boolean_table {F C : Type} (L : GoLib F C) (provider : dataProvider)
    (pre : List (Field F C)) (f : Field F C) (post : List (Field F C)) (v : String)
    (hann : f.annotated) (hkind : f.kind = .Bool)
    (hpre : (bindFields L provider pre).err = none)
    (hlook : provider (envVarName f.envTag) = .ok v) :
    (v ∈ ["Y", "y", "Yes", "YES", "yes", "on", "true"] →
      BindStruct L (.structPtr (pre ++ f :: post)) provider
        = ofLoop (boundAt L provider pre f post (.bool true))) ∧
    (v ∈ ["N", "n", "No", "NO", "no", "off"] →
      BindStruct L (.structPtr (pre ++ f :: post)) provider
        = ofLoop (boundAt L provider pre f post (.bool false))) ∧
    (v = "maybe" →
      BindStruct L (.structPtr (pre ++ f :: post)) provider
          = ofLoop (failedAt L provider pre f post (.parseBool f.Name .ErrSyntax)) ∧
        (BindError.parseBool f.Name .ErrSyntax).errorClass = .CoercionError) := by
  refine ⟨?_, ?_, ?_⟩
  · intro hv
    have hval : v = "" → isRequired f.envTag = false := by
      intro h; rw [h] at hv; exact absurd hv (by decide)
    apply BindStruct_found_ok L provider pre f post v _ hann hpre hlook hval
    rw [hkind]
    simp only [List.mem_cons, List.mem_singleton, List.not_mem_nil, or_false] at hv
    rcases hv with h | h | h | h | h | h | h <;> rw [h] <;> rfl
  · intro hv
    have hval : v = "" → isRequired f.envTag = false := by
      intro h; rw [h] at hv; exact absurd hv (by decide)
    apply BindStruct_found_ok L provider pre f post v _ hann hpre hlook hval
    rw [hkind]
    simp only [List.mem_cons, List.mem_singleton, List.not_mem_nil, or_false] at hv
    rcases hv with h | h | h | h | h | h <;> rw [h] <;> rfl
  · intro hv
    have hval : v = "" → isRequired f.envTag = false := by
      intro h; rw [h] at hv; exact absurd hv (by decide)
    refine ⟨?_, rfl⟩
    apply BindStruct_found_err L provider pre f post v _ hann hpre hlook hval
    rw [hkind, hv]
    rfl

/-- A boolean field that holds true, bound to `N`, holds false afterwards. -/
theorem C6_boolean_table_witness :
    BindStruct lib64 (.structPtr ([fieldString] ++ fieldFlag :: [fieldInt8]))
        (mapProvider [("FLAG", "N")])
      = ofLoop (boundAt lib64 (mapProvider [("FLAG", "N")]) [fieldString] fieldFlag
          [fieldInt8] (.bool false)) :=
  (C6_boolean_table lib64 (mapProvider [("FLAG", "N")]) [fieldString] fieldFlag [fieldInt8]
    "N" (by decide) (by decide) (by decide) (by decide)).2.1 (by decide)

/-- C7, as stated, fails: the texts `1` and `TRUE` are none of the twelve literals and
differ from `true`, yet they set a boolean field to true without error, and `0` and
`False` set it to false without error. -/
theorem C7_counterexample :
    "1" ∉ truthyLiterals ++ falsyLiterals ∧ "1" ≠ "true" ∧ "1" ≠ "false" ∧
    BindStruct lib64 (.structPtr [fieldBool]) (mapProvider [("BOOL", "1")])
      = ⟨.structPtr [{ fieldBool with value := .bool true }], ["BOOL"], none⟩ ∧
    BindStruct lib64 (.structPtr [fieldBool]) (mapProvider [("BOOL", "TRUE")])
      = ⟨.structPtr [{ fieldBool with value := .bool true }], ["BOOL"], none⟩ ∧
    BindStruct lib64 (.structPtr [fieldFlag]) (mapProvider [("FLAG", "0")])
      = ⟨.structPtr [{ fieldFlag with value := .bool false }], ["FLAG"], none⟩ ∧
    BindStruct lib64 (.structPtr [fieldFlag]) (mapProvider [("FLAG", "False")])
      = ⟨.structPtr [{ fieldFlag with value := .bool false }], ["FLAG"], none⟩ := by
  refine ⟨by decide, by decide, by decide, by decide, by decide, by decide, by decide⟩

/-- C7, as amended: the fallback is `strconv.ParseBool`. When the fields before the
annotated boolean field `f` bind without error and the found value `v` is none of the
twelve literals (and is not empty when the field is required), the field is set to true
when `v` is one of `1`, `t`, `T`, `true`, `TRUE`, `True`, to false when `v` is one of
`0`, `f`, `F`, `false`, `FALSE`, `False`, and for every other `v` the call ends with the
parse error of the field, a coercion error, the field being left as it was. -/
theorem C7_fallback_ParseBool {F C : Type} (L : GoLib F C) (provider : dataProvider)
    (pre : List (Field F C)) (f : Field F C) (post : List (Field F C)) (v : String)
    (hann : f.annotated) (hkind : f.kind = .Bool)
    (hpre : (bindFields L provider pre).err = none)
    (hlook : provider (envVarName f.envTag) = .ok v)
    (hval : v = "" → isRequired f.envTag = false)
    (hnt : v ∉ truthyLiterals) (hnf : v ∉ falsyLiterals) :
    (v ∈ strconvTrue →
      BindStruct L (.structPtr (pre ++ f :: post)) provider
        = ofLoop (boundAt L provider pre f post (.bool true))) ∧
    (v ∈ strconvFalse →
      BindStruct L (.structPtr (pre ++ f :: post)) provider
        = ofLoop (boundAt L provider pre f post (.bool false))) ∧
    (v ∉ strconvTrue → v ∉ strconvFalse →
      BindStruct L (.structPtr (pre ++ f :: post)) provider
          = ofLoop (failedAt L provider pre f post (.parseBool f.Name .ErrSyntax)) ∧
        (BindError.parseBool f.Name .ErrSyntax).errorClass = .CoercionError) := by
  refine ⟨?_, ?_, ?_⟩
  · intro hv
    apply BindStruct_found_ok L provider pre f post v _ hann hpre hlook hval
    rw [hkind, setField_Bool, if_neg hnt, if_neg hnf, if_pos hv]
  · intro hv
    have hn : v ∉ strconvTrue := by
      intro ht
      simp only [strconvTrue, strconvFalse, List.mem_cons, List.mem_singleton,
        List.not_mem_nil, or_false] at ht hv
      rcases ht with h | h | h | h | h | h <;> rw [h] at hv <;> revert hv <;> decide
    apply BindStruct_found_ok L provider pre f post v _ hann hpre hlook hval
    rw [hkind, setField_Bool, if_neg hnt, if_neg hnf, if_neg hn, if_pos hv]
  · intro hn1 hn2
    refine ⟨?_, rfl⟩
    apply BindStruct_found_err L provider pre f post v _ hann hpre hlook hval
    rw [hkind, setField_Bool, if_neg hnt, if_neg hnf, if_neg hn1, if_neg hn2]

/-- The text `yEs` is in neither vocabulary and is not accepted by the fallback: the
call fails with the parse error of the field. -/
theorem C7_fallback_ParseBool_witness :
    BindStruct lib64 (.structPtr ([fieldString] ++ fieldFlag :: [fieldInt8]))
        (mapProvider [("FLAG", "yEs")])
      = ofLoop (failedAt lib64 (mapProvider [("FLAG", "yEs")]) [fieldString] fieldFlag
          [fieldInt8] (.parseBool fieldFlag.Name .ErrSyntax)) ∧
      (BindError.parseBool fieldFlag.Name .ErrSyntax).errorClass = .CoercionError :=
  (C7_fallback_ParseBool lib64 (mapProvider [("FLAG", "yEs")]) [fieldString] fieldFlag
    [fieldInt8] "yEs" (by decide) (by decide) (by decide) (by decide) (by decide)
    (by decide) (by decide)).2.2 (by decide) (by decide)

/-! ## Order of processing -/

/-- C8: when the provider reports an error (not found, or any other error) for the key
of an annotated field `f` that is not required, the call returns the same error, or
none, as for the struct without `f`, and the fields after the call are those of the
struct without `f` after its call, with `f` unchanged at its place. -/
theorem C8_optional_absent_skipped {F C : Type} (L : GoLib F C) (provider : dataProvider)
    (pre : List (Field F C)) (f : Field F C) (post : List (Field F C)) (cause : String)
    (hann : f.annotated) (hreq : isRequired f.envTag = false)
    (hlook : provider (envVarName f.envTag) = .error cause) :
    (BindStruct L (.structPtr (pre ++ f :: post)) provider).err
        = (BindStruct L (.structPtr (pre ++ post)) provider).err ∧
      (BindStruct L (.structPtr (pre ++ f :: post)) provider).config
        = .structPtr ((bindFields L provider (pre ++ post)).fields.take pre.length
            ++ f :: (bindFields L provider (pre ++ post)).fields.drop pre.length) := by
  have hf := bindField_optional_absent L provider f cause hann hreq hlook
  have hlen := bindFields_length L provider pre
  have hcons : bindFields L provider (f :: post)
      = ⟨f :: (bindFields L provider post).fields,
          envVarName f.envTag :: (bindFields L provider post).calls,
          (bindFields L provider post).err⟩ := by
    rw [bindFields_cons_ok L provider f post (by rw [hf]), hf]
    rfl
  simp only [BindStruct_structPtr, ofLoop]
  rw [bindFields_append L provider pre (f :: post), bindFields_append L provider pre post,
    hcons]
  cases hpre : (bindFields L provider pre).err with
  | some e => simp [List.take_left' hlen, List.drop_left' hlen]
  | none => simp [List.take_left' hlen, List.drop_left' hlen]

/-- The case `BoolTrueValues` of the test: only `BOOL` is set, the field `Int8` is
absent and not required, and the call behaves as on `Config` without `Int8`. -/
theorem C8_optional_absent_skipped_witness :
    (BindStruct lib64 (.structPtr (testConfig.take 2 ++ fieldInt8 :: testConfig.drop 3))
        (mapProvider [("BOOL", "Y")])).err
        = (BindStruct lib64 (.structPtr (testConfig.take 2 ++ testConfig.drop 3))
            (mapProvider [("BOOL", "Y")])).err ∧
      (BindStruct lib64 (.structPtr (testConfig.take 2 ++ fieldInt8 :: testConfig.drop 3))
        (mapProvider [("BOOL", "Y")])).config
        = .structPtr ((bindFields lib64 (mapProvider [("BOOL", "Y")])
              (testConfig.take 2 ++ testConfig.drop 3)).fields.take (testConfig.take 2).length
            ++ fieldInt8 :: (bindFields lib64 (mapProvider [("BOOL", "Y")])
              (testConfig.take 2 ++ testConfig.drop 3)).fields.drop
                (testConfig.take 2).length) :=
  C8_optional_absent_skipped lib64 (mapProvider [("BOOL", "Y")]) (testConfig.take 2)
    fieldInt8 (testConfig.drop 3) "environment variable INT8 not found"
    (by decide) (by decide) (by decide)

/-- C9: the loop is fail-fast in declaration order. Whenever `BindStruct`, called on a
struct, returns an error `e`, the fields split as `pre ++ f :: post` where no field of
`pre` fails, `f` is thus the first field whose iteration fails and `e` is its error;
after the call every field of `pre` holds what its own iteration stored, `f` and the
fields of `post` are as before the call, and the provider was called for the fields of
`pre` and for `f` only. -/
theorem C9_fail_fast {F C : Type} (L : GoLib F C) (provider : dataProvider)
    (fs : List (Field F C)) (e : BindError)
    (herr : (BindStruct L (.structPtr fs) provider).err = some e) :
    ∃ pre f post, fs = pre ++ f :: post ∧
      (∀ g ∈ pre, (bindField L provider g).err = none) ∧
      (bindField L provider f).err = some e ∧
      BindStruct L (.structPtr fs) provider
        = ⟨.structPtr (pre.map (fun g => (bindField L provider g).field) ++ f :: post),
            pre.filterMap (fun g => (bindField L provider g).call) ++ [envVarName f.envTag],
            some e⟩ := by
  rw [BindStruct_structPtr] at herr ⊢
  simp only [ofLoop] at herr ⊢
  induction fs with
  | nil => simp [bindFields] at herr
  | cons g rest ih =>
    cases hg : (bindField L provider g).err with
    | some e1 =>
      rw [bindFields_cons_err L provider g rest e1 hg] at herr ⊢
      simp only [Option.some.injEq] at herr
      subst herr
      exact ⟨[], g, rest, rfl, by simp, hg, by simp⟩
    | none =>
      rw [bindFields_cons_ok L provider g rest hg] at herr ⊢
      simp only at herr
      obtain ⟨pre, f, post, hfs, hpre, hf, hres⟩ := ih herr
      refine ⟨g :: pre, f, post, by rw [hfs]; rfl, ?_, hf, ?_⟩
      · intro x hx
        rcases List.mem_cons.mp hx with rfl | hx
        · exact hg
        · exact hpre x hx
      · simp only [BindResult.mk.injEq, Target.structPtr.injEq] at hres
        obtain ⟨h1, h2, h3⟩ := hres
        simp only [h1, h2, h3, List.map_cons, List.cons_append, List.filterMap_cons]
        cases hc : (bindField L provider g).call <;> simp

/-- On `Config` with `INT8` set to a text that is no number, the call fails. -/
theorem C9_fail_fast_witness :
    ∃ pre f post, testConfig = pre ++ f :: post ∧
      (∀ g ∈ pre, (bindField lib64 (mapProvider [("INT8", "abc"), ("INT16", "7")]) g).err
        = none) ∧
      (bindField lib64 (mapProvider [("INT8", "abc"), ("INT16", "7")]) f).err
        = some (.parseInt "Int8" .ErrSyntax) ∧
      BindStruct lib64 (.structPtr testConfig)
          (mapProvider [("INT8", "abc"), ("INT16", "7")])
        = ⟨.structPtr (pre.map (fun g =>
              (bindField lib64 (mapProvider [("INT8", "abc"), ("INT16", "7")]) g).field)
              ++ f :: post),
            pre.filterMap (fun g =>
              (bindField lib64 (mapProvider [("INT8", "abc"), ("INT16", "7")]) g).call)
              ++ [envVarName f.envTag],
            some (.parseInt "Int8" .ErrSyntax)⟩ :=
  C9_fail_fast lib64 (mapProvider [("INT8", "abc"), ("INT16", "7")]) testConfig
    (.parseInt "Int8" .ErrSyntax) (by decide)

/-! ## Unsupported kinds -/

theorem setField_unsupported {F C : Type} (L : GoLib F C) (k : Kind) (name v : String)
    (hk : supportedKind k = false) : setField L k name v = .error (.unsupportedKind k) := by
  cases k <;> first | rfl | exact absurd hk (by decide)

/-- C10, as stated, fails: a field of slice type that is not required and whose key is
not found is skipped without any error; and when such a field is required the error is
the lookup failure, of class MissingRequired, not UnsupportedType. -/
theorem C10_counterexample :
    supportedKind fieldList.kind = false ∧ fieldList.annotated ∧
    BindStruct lib64 (.structPtr [fieldList]) (mapProvider [])
      = ⟨.structPtr [fieldList], ["LIST"], none⟩ ∧
    BindStruct lib64 (.structPtr [{ fieldList with envTag := "LIST,required" }])
        (mapProvider [])
      = ⟨.structPtr [{ fieldList with envTag := "LIST,required" }], ["LIST"],
          some (.getValue "List" "environment variable LIST not found")⟩ := by
  refine ⟨by decide, by decide, by decide, by decide⟩

/-- C10, as amended: when the fields before an annotated field `f` of an unsupported
kind bind without error and the provider returns a found value for its key, which is
not empty when the field is required, the call ends at `f` with the unsupported-type
error carrying the kind of `f`, and `f` is left as it was. -/
theorem C10_unsupported_kind {F C : Type} (L : GoLib F C) (provider : dataProvider)
    (pre : List (Field F C)) (f : Field F C) (post : List (Field F C)) (v : String)
    (hann : f.annotated) (hkind : supportedKind f.kind = false)
    (hpre : (bindFields L provider pre).err = none)
    (hlook : provider (envVarName f.envTag) = .ok v)
    (hval : v = "" → isRequired f.envTag = false) :
    BindStruct L (.structPtr (pre ++ f :: post)) provider
        = ofLoop (failedAt L provider pre f post (.unsupportedKind f.kind)) ∧
      (BindError.unsupportedKind f.kind).errorClass = .UnsupportedType :=
  ⟨BindStruct_found_err L provider pre f post v _ hann hpre hlook hval
    (setField_unsupported L f.kind f.Name v hkind), rfl⟩

/-- A field of slice type with a found value fails as unsupported. -/
theorem C10_unsupported_kind_witness :
    BindStruct lib64 (.structPtr ([fieldString] ++ fieldList :: [fieldBool]))
        (mapProvider [("LIST", "a,b")])
      = ofLoop (failedAt lib64 (mapProvider [("LIST", "a,b")]) [fieldString] fieldList
          [fieldBool] (.unsupportedKind fieldList.kind)) ∧
      (BindError.unsupportedKind fieldList.kind).errorClass = .UnsupportedType :=
  C10_unsupported_kind lib64 (mapProvider [("LIST", "a,b")]) [fieldString] fieldList
    [fieldBool] "a,b" (by decide) (by decide) (by decide) (by decide) (by decide)

/-! ## Annotations -/

theorem splitChars_no_sep (sep : Char) (p : List Char) (h : sep ∉ p) :
    splitChars sep p = [p] := by
  induction p with
  | nil => rfl
  | cons c p ih =>
    have hc : c ≠ sep := fun e => h (by simp [e])
    have hp : sep ∉ p := fun e => h (List.mem_cons_of_mem _ e)
    simp [splitChars, hc, ih hp]

theorem splitChars_append_sep (sep : Char) (p l : List Char) (h : sep ∉ p) :
    splitChars sep (p ++ sep :: l) = p :: splitChars sep l := by
  induction p with
  | nil => simp [splitChars]
  | cons c p ih =>
    have hc : c ≠ sep := fun e => h (by simp [e])
    have hp : sep ∉ p := fun e => h (List.mem_cons_of_mem _ e)
    simp [splitChars, hc, ih hp]

theorem splitChars_joinChars (sep : Char) (segs : List (List Char)) (hne : segs ≠ [])
    (h : ∀ p ∈ segs, sep ∉ p) : splitChars sep (joinChars sep segs) = segs := by
  induction segs with
  | nil => exact absurd rfl hne
  | cons p rest ih =>
    cases rest with
    | nil => exact splitChars_no_sep sep p (h p (by simp))
    | cons q rest =>
      rw [joinChars, splitChars_append_sep sep p _ (h p (by simp)),
        ih (by simp) (fun x hx => h x (List.mem_cons_of_mem _ hx))]

theorem Split_Join (sep : Char) (elems : List String) (hne : elems ≠ [])
    (h : ∀ e ∈ elems, sep ∉ e.data) : Split (Join elems sep) sep = elems := by
  unfold Split Join
  rw [splitChars_joinChars sep _ (by simpa using hne)]
  · rw [List.map_map]
    conv_rhs => rw [← List.map_id elems]
    apply List.map_congr_left
    intro e _
    rfl
  · intro p hp
    obtain ⟨e, he, rfl⟩ := List.mem_map.mp hp
    exact h e he

theorem Join_ne_empty (sep : Char) (key : String) (mods : List String) (h : key ≠ "") :
    Join (key :: mods) sep ≠ "" := by
  intro he
  have hd := congrArg String.data he
  have hk : key.data ≠ [] := by
    intro hk
    apply h
    cases key
    simp_all
  cases mods with
  | nil => exact hk (by simpa [Join, joinChars] using hd)
  | cons m ms =>
    simp only [Join, List.map_cons, joinChars] at hd
    have : key.data = [] := by
      have := congrArg List.length hd
      simp at this
    exact hk this

theorem bindField_tag_congr {F C : Type} (L : GoLib F C) (provider : dataProvider)
    (f : Field F C) (t1 t2 : String) (h1 : t1 ≠ "") (h2 : t2 ≠ "")
    (hk : envVarName t1 = envVarName t2) (hr : isRequired t1 = isRequired t2) :
    (bindField L provider { f with envTag := t1 }).err
        = (bindField L provider { f with envTag := t2 }).err ∧
      (bindField L provider { f with envTag := t1 }).call
        = (bindField L provider { f with envTag := t2 }).call ∧
      (bindField L provider { f with envTag := t1 }).field.value
        = (bindField L provider { f with envTag := t2 }).field.value := by
  unfold bindField
  simp only [h1, h2, if_false, hk, hr]
  by_cases he : f.exported = false
  · simp [he]
  · simp only [he, if_false]
    cases hp : provider (envVarName t2) with
    | error c =>
      simp only
      by_cases hq : isRequired t2 = true <;> simp [hq]
    | ok v =>
      simp only
      by_cases hq : v = "" ∧ isRequired t2 = true
      · simp [hq]
      · simp only [hq, if_false]
        cases hv : setField L f.kind f.Name v <;> simp

theorem bindFields_congr_at {F C : Type} (L : GoLib F C) (provider : dataProvider)
    (pre post : List (Field F C)) (f1 f2 : Field F C) (h0 : f1.value = f2.value)
    (he : (bindField L provider f1).err = (bindField L provider f2).err)
    (hc : (bindField L provider f1).call = (bindField L provider f2).call)
    (hv : (bindField L provider f1).field.value = (bindField L provider f2).field.value) :
    (bindFields L provider (pre ++ f1 :: post)).err
        = (bindFields L provider (pre ++ f2 :: post)).err ∧
      (bindFields L provider (pre ++ f1 :: post)).calls
        = (bindFields L provider (pre ++ f2 :: post)).calls ∧
      (bindFields L provider (pre ++ f1 :: post)).fields.map Field.value
        = (bindFields L provider (pre ++ f2 :: post)).fields.map Field.value := by
  rw [bindFields_append, bindFields_append, bindFields_cons, bindFields_cons, he, hc]
  cases hpre : (bindFields L provider pre).err with
  | some e => simp [h0]
  | none =>
    cases h2 : (bindField L provider f2).err with
    | some e2 => simp [hv]
    | none => simp [hv]

/-- C11: annotation parsing. For the annotation whose comma-separated segments are a key
and the modifiers `mods`: the lookup key is the first segment, that is the text before
the first comma; it is the key handed to the provider for an exported field; the field
is required exactly when some modifier is the text `required`; and the other modifiers
play no part: with a non-empty key, two annotations with the same key whose modifier
lists agree on containing `required` give the same error, the same provider calls and
the same field values. -/
theorem C11_annotation_parsing {F C : Type} (L : GoLib F C) (provider : dataProvider)
    (pre : List (Field F C)) (f : Field F C) (post : List (Field F C)) (key : String)
    (mods mods2 : List String)
    (hkey : ',' ∉ key.data) (hne : key ≠ "")
    (hmods : ∀ m ∈ mods, ',' ∉ m.data) (hmods2 : ∀ m ∈ mods2, ',' ∉ m.data)
    (hreq : "required" ∈ mods ↔ "required" ∈ mods2) :
    envVarName (Join (key :: mods) ',') = key ∧
    key.data = (Join (key :: mods) ',').data.takeWhile (fun c => decide (c ≠ ',')) ∧
    (f.exported = true →
      (bindField L provider { f with envTag := Join (key :: mods) ',' }).call = some key) ∧
    (isRequired (Join (key :: mods) ',') = true ↔ "required" ∈ mods) ∧
    (BindStruct L (.structPtr (pre ++ { f with envTag := Join (key :: mods) ',' } :: post))
        provider).err
      = (BindStruct L (.structPtr (pre ++ { f with envTag := Join (key :: mods2) ',' }
          :: post)) provider).err ∧
    (BindStruct L (.structPtr (pre ++ { f with envTag := Join (key :: mods) ',' } :: post))
        provider).calls
      = (BindStruct L (.structPtr (pre ++ { f with envTag := Join (key :: mods2) ',' }
          :: post)) provider).calls ∧
    fieldValues (BindStruct L (.structPtr
        (pre ++ { f with envTag := Join (key :: mods) ',' } :: post)) provider).config
      = fieldValues (BindStruct L (.structPtr
        (pre ++ { f with envTag := Join (key :: mods2) ',' } :: post)) provider).config := by
  have hall : ∀ ms : List String, (∀ m ∈ ms, ',' ∉ m.data) →
      ∀ e ∈ key :: ms, ',' ∉ e.data := by
    intro ms hms e he
    rcases List.mem_cons.mp he with rfl | he
    · exact hkey
    · exact hms e he
  have hsplit : ∀ ms : List String, (∀ m ∈ ms, ',' ∉ m.data) →
      Split (Join (key :: ms) ',') ',' = key :: ms :=
    fun ms hms => Split_Join ',' (key :: ms) (by simp) (hall ms hms)
  have hname : ∀ ms : List String, (∀ m ∈ ms, ',' ∉ m.data) →
      envVarName (Join (key :: ms) ',') = key := by
    intro ms hms
    simp [envVarName, hsplit ms hms]
  have hrq : ∀ ms : List String, (∀ m ∈ ms, ',' ∉ m.data) →
      (isRequired (Join (key :: ms) ',') = true ↔ "required" ∈ ms) := by
    intro ms hms
    simp only [isRequired, hsplit ms hms, List.tail_cons, List.any_eq_true,
      decide_eq_true_eq]
    constructor
    · rintro ⟨x, hx, rfl⟩
      exact hx
    · intro h
      exact ⟨_, h, rfl⟩
  have hreqeq : isRequired (Join (key :: mods) ',') = isRequired (Join (key :: mods2) ',') := by
    cases h1 : isRequired (Join (key :: mods) ',') <;>
      cases h2 : isRequired (Join (key :: mods2) ',') <;> try rfl
    · exact absurd (hreq.mpr ((hrq mods2 hmods2).mp h2))
        (fun h => by rw [(hrq mods hmods).mpr h] at h1; exact Bool.noConfusion h1)
    · exact absurd (hreq.mp ((hrq mods hmods).mp h1))
        (fun h => by rw [(hrq mods2 hmods2).mpr h] at h2; exact Bool.noConfusion h2)
  have hcong := bindField_tag_congr L provider f _ _ (Join_ne_empty ',' key mods hne)
    (Join_ne_empty ',' key mods2 hne) ((hname mods hmods).trans (hname mods2 hmods2).symm)
    hreqeq
  have hloop := bindFields_congr_at L provider pre post
    { f with envTag := Join (key :: mods) ',' } { f with envTag := Join (key :: mods2) ',' }
    rfl hcong.1 hcong.2.1 hcong.2.2
  refine ⟨hname mods hmods, ?_, ?_, hrq mods hmods, hloop.1, hloop.2.1, hloop.2.2⟩
  · cases mods with
    | nil =>
      simp only [Join, List.map_cons, List.map_nil, joinChars]
      rw [List.takeWhile_eq_self_iff.mpr]
      intro c hc
      simp only [decide_eq_true_eq]
      rintro rfl
      exact hkey hc
    | cons m ms =>
      simp only [Join, List.map_cons, joinChars]
      rw [List.takeWhile_append_of_pos, List.takeWhile_cons_of_neg (by simp)]
      · simp
      · intro c hc
        simp only [decide_eq_true_eq]
        rintro rfl
        exact hkey hc
  · intro hexp
    unfold bindField
    simp only [hexp, Join_ne_empty ',' key mods hne, if_false, hname mods hmods]
    cases hp : provider key with
    | error c =>
      simp only
      by_cases hq : isRequired (Join (key :: mods) ',') = true <;> simp [hq]
    | ok v =>
      simp only
      by_cases hq : v = "" ∧ isRequired (Join (key :: mods) ',') = true
      · simp [hq]
      · simp only [hq, if_false]
        cases hv : setField L f.kind f.Name v <;> simp

/-- The annotation `K,foo,required,bar` binds like `K,required`. -/
theorem C11_annotation_parsing_witness :
    envVarName (Join ("K" :: ["foo", "required", "bar"]) ',') = "K" ∧
    "K".data = (Join ("K" :: ["foo", "required", "bar"]) ',').data.takeWhile
      (fun c => decide (c ≠ ',')) ∧
    (fieldFlag.exported = true →
      (bindField lib64 (mapProvider [("K", "on")])
        { fieldFlag with envTag := Join ("K" :: ["foo", "required", "bar"]) ',' }).call
        = some "K") ∧
    (isRequired (Join ("K" :: ["foo", "required", "bar"]) ',') = true
      ↔ "required" ∈ ["foo", "required", "bar"]) ∧
    (BindStruct lib64 (.structPtr ([fieldString] ++
        { fieldFlag with envTag := Join ("K" :: ["foo", "required", "bar"]) ',' }
          :: [fieldInt8])) (mapProvider [("K", "on")])).err
      = (BindStruct lib64 (.structPtr ([fieldString] ++
        { fieldFlag with envTag := Join ("K" :: ["required"]) ',' }
          :: [fieldInt8])) (mapProvider [("K", "on")])).err ∧
    (BindStruct lib64 (.structPtr ([fieldString] ++
        { fieldFlag with envTag := Join ("K" :: ["foo", "required", "bar"]) ',' }
          :: [fieldInt8])) (mapProvider [("K", "on")])).calls
      = (BindStruct lib64 (.structPtr ([fieldString] ++
        { fieldFlag with envTag := Join ("K" :: ["required"]) ',' }
          :: [fieldInt8])) (mapProvider [("K", "on")])).calls ∧
    fieldValues (BindStruct lib64 (.structPtr ([fieldString] ++
        { fieldFlag with envTag := Join ("K" :: ["foo", "required", "bar"]) ',' }
          :: [fieldInt8])) (mapProvider [("K", "on")])).config
      = fieldValues (BindStruct lib64 (.structPtr ([fieldString] ++
        { fieldFlag with envTag := Join ("K" :: ["required"]) ',' }
          :: [fieldInt8])) (mapProvider [("K", "on")])).config :=
  C11_annotation_parsing lib64 (mapProvider [("K", "on")]) [fieldString] fieldFlag
    [fieldInt8] "K" ["foo", "required", "bar"] ["required"]
    (by decide) (by decide) (by decide) (by decide) (by decide)

theorem bindField_call {F C : Type} (L : GoLib F C) (provider : dataProvider)
    (f : Field F C) :
    (f.annotated → (bindField L provider f).call = some (envVarName f.envTag)) ∧
      (¬ f.annotated → bindField L provider f = ⟨f, none, none⟩) := by
  unfold Field.annotated bindField
  by_cases h1 : f.exported = false
  · simp [h1]
  · by_cases h2 : f.envTag = ""
    · simp [h1, h2]
    · simp only [h1, h2, if_false]
      refine ⟨fun _ => ?_, fun h => absurd ⟨by cases hx : f.exported <;> simp_all, h2⟩ h⟩
      cases hp : provider (envVarName f.envTag) with
      | error c =>
        simp only
        by_cases hq : isRequired f.envTag = true <;> simp [hq]
      | ok v =>
        simp only
        by_cases hq : v = "" ∧ isRequired f.envTag = true
        · simp [hq]
        · simp only [hq, if_false]
          cases hv : setField L f.kind f.Name v <;> simp

/-- C12, as stated, fails: the annotation `,required` has an empty first segment, yet
the field that carries it is processed: the provider is called with the empty key and,
the key not being found, the call fails for that field; and with the annotation `,x`
and a value found under the empty key, the field is written. -/
theorem C12_counterexample :
    envVarName ",required" = "" ∧
    BindStruct lib64 (.structPtr [{ fieldFlag with envTag := ",required" }])
        (mapProvider [("FLAG", "off")])
      = ⟨.structPtr [{ fieldFlag with envTag := ",required" }], [""],
          some (.getValue "Flag" "environment variable  not found")⟩ ∧
    BindStruct lib64 (.structPtr [{ fieldFlag with envTag := ",x" }])
        (mapProvider [("", "off")])
      = ⟨.structPtr [{ fieldFlag with envTag := ",x", value := .bool false }], [""],
          none⟩ := by
  refine ⟨by decide, by decide, by decide⟩

/-- C12, as amended: binding is activated by a non-empty annotation. The provider is
called for a field exactly when the field is exported and its `env` tag is not empty,
and then with the first segment of the tag, empty or not. For a field `f` that is not
exported or has no or an empty tag, of whatever kind, the iteration does nothing: the
call returns the same error and makes the same provider calls as for the struct
without `f`, and the fields are those of the struct without `f` after its call, with
`f` unchanged at its place. -/
theorem C12_binding_activation {F C : Type} (L : GoLib F C) (provider : dataProvider)
    (pre : List (Field F C)) (f : Field F C) (post : List (Field F C))
    (hf : f.exported = false ∨ f.envTag = "") :
    (∀ g : Field F C,
      ((bindField L provider g).call = some (envVarName g.envTag) ↔ g.annotated)) ∧
    (BindStruct L (.structPtr (pre ++ f :: post)) provider).err
      = (BindStruct L (.structPtr (pre ++ post)) provider).err ∧
    (BindStruct L (.structPtr (pre ++ f :: post)) provider).calls
      = (BindStruct L (.structPtr (pre ++ post)) provider).calls ∧
    (BindStruct L (.structPtr (pre ++ f :: post)) provider).config
      = .structPtr ((bindFields L provider (pre ++ post)).fields.take pre.length
          ++ f :: (bindFields L provider (pre ++ post)).fields.drop pre.length) := by
  have hna : ¬ f.annotated := by
    rintro ⟨h1, h2⟩
    rcases hf with h | h
    · rw [h] at h1; exact Bool.noConfusion h1
    · exact h2 h
  have hb := (bindField_call L provider f).2 hna
  have hlen := bindFields_length L provider pre
  have hcons : bindFields L provider (f :: post)
      = ⟨f :: (bindFields L provider post).fields, (bindFields L provider post).calls,
          (bindFields L provider post).err⟩ := by
    rw [bindFields_cons_ok L provider f post (by rw [hb]), hb]
    rfl
  refine ⟨?_, ?_⟩
  · intro g
    constructor
    · intro hc
      by_contra hg
      rw [(bindField_call L provider g).2 hg] at hc
      exact Option.noConfusion hc
    · exact (bindField_call L provider g).1
  · simp only [BindStruct_structPtr, ofLoop]
    rw [bindFields_append L provider pre (f :: post), bindFields_append L provider pre post,
      hcons]
    cases hpre : (bindFields L provider pre).err with
    | some e => simp [List.take_left' hlen, List.drop_left' hlen]
    | none => simp [List.take_left' hlen, List.drop_left' hlen]

/-- A field of slice type without tag is passed over. -/
theorem C12_binding_activation_witness :
    (∀ g : Field Unit Unit,
      ((bindField lib64 (mapProvider [("BOOL", "Y")]) g).call = some (envVarName g.envTag)
        ↔ g.annotated)) ∧
    (BindStruct lib64 (.structPtr ([fieldString] ++ { fieldList with envTag := "" }
        :: [fieldBool])) (mapProvider [("BOOL", "Y")])).err
      = (BindStruct lib64 (.structPtr ([fieldString] ++ [fieldBool]))
          (mapProvider [("BOOL", "Y")])).err ∧
    (BindStruct lib64 (.structPtr ([fieldString] ++ { fieldList with envTag := "" }
        :: [fieldBool])) (mapProvider [("BOOL", "Y")])).calls
      = (BindStruct lib64 (.structPtr ([fieldString] ++ [fieldBool]))
          (mapProvider [("BOOL", "Y")])).calls ∧
    (BindStruct lib64 (.structPtr ([fieldString] ++ { fieldList with envTag := "" }
        :: [fieldBool])) (mapProvider [("BOOL", "Y")])).config
      = .structPtr ((bindFields lib64 (mapProvider [("BOOL", "Y")])
            ([fieldString] ++ [fieldBool])).fields.take [fieldString].length
          ++ { fieldList with envTag := "" }
            :: (bindFields lib64 (mapProvider [("BOOL", "Y")])
              ([fieldString] ++ [fieldBool])).fields.drop [fieldString].length) :=
  C12_binding_activation lib64 (mapProvider [("BOOL", "Y")]) [fieldString]
    { fieldList with envTag := "" } [fieldBool] (by decide)

/-! ## Success and empty values -/

theorem bindFields_ok {F C : Type} (L : GoLib F C) (provider : dataProvider)
    (fs : List (Field F C)) (h : (bindFields L provider fs).err = none) :
    (∀ g ∈ fs, (bindField L provider g).err = none) ∧
      (bindFields L provider fs).fields = fs.map (fun g => (bindField L provider g).field) := by
  induction fs with
  | nil => simp [bindFields]
  | cons f rest ih =>
    rw [bindFields_cons] at h ⊢
    cases hf : (bindField L provider f).err with
    | some e => rw [hf] at h; simp at h
    | none =>
      rw [hf] at h
      simp only at h
      obtain ⟨h1, h2⟩ := ih h
      refine ⟨?_, by simp [h2]⟩
      intro g hg
      rcases List.mem_cons.mp hg with rfl | hg
      · exact hf
      · exact h1 g hg

theorem bindField_ok_required {F C : Type} (L : GoLib F C) (provider : dataProvider)
    (f : Field F C) (hann : f.annotated) (hreq : isRequired f.envTag = true)
    (hok : (bindField L provider f).err = none) :
    ∃ v w, provider (envVarName f.envTag) = .ok v ∧ v ≠ "" ∧
      setField L f.kind f.Name v = .ok w ∧
      (bindField L provider f).field = { f with value := w } := by
  cases hp : provider (envVarName f.envTag) with
  | error c =>
    rw [bindField_required_absent L provider f c hann hreq hp] at hok
    simp at hok
  | ok v =>
    by_cases hv : v = ""
    · subst hv
      rw [bindField_required_empty L provider f hann hreq hp] at hok
      simp at hok
    · have hb := bindField_found L provider f v hann hp (fun h => absurd h hv)
      rw [hb] at hok ⊢
      cases hs : setField L f.kind f.Name v with
      | error e => rw [hs] at hok; simp at hok
      | ok w => exact ⟨v, w, rfl, hv, hs, rfl⟩

/-- C18: success implies that every required field was supplied. When `BindStruct`,
called on a struct, returns no error, then for every annotated required field `f` of the
struct, at any index `i`, the provider returned a found value `v` for the key of `f`,
`v` is not empty, the switch accepts `v` for the kind of `f`, and after the call the
field at index `i` is `f` holding the value the switch gives for `v`. -/
theorem C18_success_required_supplied {F C : Type} (L : GoLib F C)
    (provider : dataProvider) (fs : List (Field F C)) (i : Nat) (f : Field F C)
    (hok : (BindStruct L (.structPtr fs) provider).err = none)
    (hi : fs[i]? = some f) (hann : f.annotated) (hreq : isRequired f.envTag = true) :
    ∃ v w, provider (envVarName f.envTag) = .ok v ∧ v ≠ "" ∧
      setField L f.kind f.Name v = .ok w ∧
      ∃ after, (BindStruct L (.structPtr fs) provider).config = .structPtr after ∧
        after[i]? = some { f with value := w } := by
  rw [BindStruct_structPtr] at hok ⊢
  simp only [ofLoop] at hok ⊢
  obtain ⟨hall, hfields⟩ := bindFields_ok L provider fs hok
  have hmem : f ∈ fs := List.getElem?_mem hi
  obtain ⟨v, w, hv, hne, hs, hfield⟩ :=
    bindField_ok_required L provider f hann hreq (hall f hmem)
  refine ⟨v, w, hv, hne, hs, _, rfl, ?_⟩
  rw [hfields, List.getElem?_map, hi]
  simp [hfield]

/-- The case `BoolTrueValues` of the test succeeds, and the required field `Bool`, at
index 13 of `Config`, holds the value of the text it was given. -/
theorem C18_success_required_supplied_witness :
    ∃ v w, mapProvider [("BOOL", "Y")] (envVarName fieldBool.envTag) = .ok v ∧ v ≠ "" ∧
      setField lib64 fieldBool.kind fieldBool.Name v = .ok w ∧
      ∃ after, (BindStruct lib64 (.structPtr testConfig)
          (mapProvider [("BOOL", "Y")])).config = .structPtr after ∧
        after[13]? = some { fieldBool with value := w } :=
  C18_success_required_supplied lib64 (mapProvider [("BOOL", "Y")]) testConfig 13
    fieldBool (by decide) (by decide) (by decide) (by decide)

theorem setField_float_empty {F C : Type} (L : GoLib F C) (k : Kind) (name : String)
    (hk : k = .Float32 ∨ k = .Float64) :
    setField L k name "" = .error (.parseFloat name .ErrSyntax) := by
  rcases hk with rfl | rfl <;> simp only [setField, L.ParseFloat_empty 64]

theorem setField_complex_empty {F C : Type} (L : GoLib F C) (k : Kind) (name : String)
    (hk : k = .Complex64 ∨ k = .Complex128) :
    setField L k name "" = .error (.parseComplex name .ErrSyntax) := by
  rcases hk with rfl | rfl <;> simp only [setField, L.ParseComplex_empty 64]

theorem setField_empty {F C : Type} (L : GoLib F C) (k : Kind) (name : String)
    (hk : supportedKind k = true) (hs : k ≠ .String) :
    ∃ e, setField L k name "" = .error e ∧ e.errorClass = .CoercionError := by
  cases k <;> first
    | exact absurd rfl hs
    | exact absurd hk (by decide)
    | exact ⟨.parseInt name .ErrSyntax, rfl, rfl⟩
    | exact ⟨.parseUint name .ErrSyntax, rfl, rfl⟩
    | exact ⟨.parseBool name .ErrSyntax, rfl, rfl⟩
    | exact ⟨_, setField_float_empty L _ name (Or.inl rfl), rfl⟩
    | exact ⟨_, setField_float_empty L _ name (Or.inr rfl), rfl⟩
    | exact ⟨_, setField_complex_empty L _ name (Or.inl rfl), rfl⟩
    | exact ⟨_, setField_complex_empty L _ name (Or.inr rfl), rfl⟩

/-- C19: a found empty value for a field that is not required. When the fields before
the annotated, non-required field `f` bind without error and the provider returns the
empty string as a found value for its key: a field of string kind is set to the empty
string and the loop goes on; a field of signed or unsigned integer, float, complex or
boolean kind is not skipped: the call ends at it with the parse error of its kind, a
coercion error, and the field is left as it was. -/
theorem C19_optional_empty {F C : Type} (L : GoLib F C) (provider : dataProvider)
    (pre : List (Field F C)) (f : Field F C) (post : List (Field F C))
    (hann : f.annotated) (hreq : isRequired f.envTag = false)
    (hpre : (bindFields L provider pre).err = none)
    (hlook : provider (envVarName f.envTag) = .ok "") :
    (f.kind = .String →
      BindStruct L (.structPtr (pre ++ f :: post)) provider
        = ofLoop (boundAt L provider pre f post (.str ""))) ∧
    (supportedKind f.kind = true → f.kind ≠ .String →
      ∃ e, BindStruct L (.structPtr (pre ++ f :: post)) provider
          = ofLoop (failedAt L provider pre f post e) ∧
        e.errorClass = .CoercionError) := by
  constructor
  · intro hk
    apply BindStruct_found_ok L provider pre f post "" _ hann hpre hlook (fun _ => hreq)
    rw [hk]
    rfl
  · intro hk hs
    obtain ⟨e, he, hc⟩ := setField_empty L f.kind f.Name hk hs
    exact ⟨e, BindStruct_found_err L provider pre f post "" e hann hpre hlook
      (fun _ => hreq) he, hc⟩

/-- The line `INT8=` of a source gives the field `Int8` an empty found value: the call
fails with the parse error of the field. -/
theorem C19_optional_empty_witness :
    ∃ e, BindStruct lib64 (.structPtr ([fieldString] ++ fieldInt8 :: [fieldBool]))
          (mapProvider [("INT8", "")])
        = ofLoop (failedAt lib64 (mapProvider [("INT8", "")]) [fieldString] fieldInt8
            [fieldBool] e) ∧
      e.errorClass = .CoercionError :=
  (C19_optional_empty lib64 (mapProvider [("INT8", "")]) [fieldString] fieldInt8
    [fieldBool] (by decide) (by decide) (by decide) (by decide)).2 (by decide) (by decide)

/-! ## Integers out of range and texts that are no integers -/

theorem digitOf_lt_ten (c : Char) (d : Nat) (h : digitOf c = some d) (hd : d < 10) :
    (48 ≤ c.toNat ∧ c.toNat ≤ 57) ∧ d = c.toNat - 48 := by
  unfold digitOf at h
  split_ifs at h with h1 h2
  · exact ⟨h1, by simpa using h.symm⟩
  · simp only [Option.some.injEq] at h
    omega

theorem ParseUintLoop_sound (cs : List Char) :
    ∀ (n r : Nat), n < 2 ^ 64 → ParseUintLoop 10 (2 ^ 64 - 1) cs n = .ok r →
      cs.all (fun c => decide (48 ≤ c.toNat ∧ c.toNat ≤ 57)) = true ∧
        r = cs.foldl (fun n c => 10 * n + (c.toNat - 48)) n ∧ r < 2 ^ 64 ∧ n ≤ r := by
  induction cs with
  | nil =>
    intro n r hn h
    simp only [ParseUintLoop, Except.ok.injEq] at h
    subst h
    exact ⟨rfl, rfl, hn, le_refl _⟩
  | cons c cs ih =>
    intro n r hn h
    rw [ParseUintLoop] at h
    cases hd : digitOf c with
    | none => simp [hd] at h
    | some d =>
      simp only [hd] at h
      split_ifs at h with h1 h2 h3
      obtain ⟨hc, hdv⟩ := digitOf_lt_ten c d hd (by omega)
      have hn1 : (n * 10 + d) % 18446744073709551616 = 10 * n + (c.toNat - 48) := by
        unfold maxUint64 at h2
        omega
      rw [hn1] at h
      obtain ⟨ha, hr, hlt, hle⟩ := ih _ _ (by omega) h
      refine ⟨?_, by simpa using hr, hlt, by omega⟩
      simp only [List.all_cons, ha, Bool.and_true, decide_eq_true_eq]
      exact hc

theorem ParseUint_sound (s : String) (n : Nat) (h : ParseUint s 10 64 = .ok n) :
    digitsValue s.data = some n ∧ n < 2 ^ 64 := by
  unfold ParseUint at h
  split_ifs at h with h0
  obtain ⟨ha, hr, hlt, _⟩ := ParseUintLoop_sound s.data 0 n (by norm_num) h
  have hne : s.data ≠ [] := by
    intro hd
    apply h0
    cases s
    simp_all
  refine ⟨?_, hlt⟩
  unfold digitsValue
  rw [if_pos ⟨hne, ha⟩, hr]

theorem digitsValue_head (c : Char) (cs : List Char) (n : Nat)
    (h : digitsValue (c :: cs) = some n) : 48 ≤ c.toNat ∧ c.toNat ≤ 57 := by
  unfold digitsValue at h
  split_ifs at h with h0
  have := h0.2
  simp only [List.all_cons, Bool.and_eq_true, decide_eq_true_eq] at this
  exact this.1

theorem ParseUint_sound_literal (s : String) (n : Nat) (h : ParseUint s 10 64 = .ok n) :
    decimalLiteral s = some (n : Int) ∧ n < 2 ^ 64 := by
  obtain ⟨hv, hlt⟩ := ParseUint_sound s n h
  refine ⟨?_, hlt⟩
  unfold decimalLiteral
  cases hs : s.data with
  | nil => rw [hs] at hv; simp [digitsValue] at hv
  | cons c cs =>
    rw [hs] at hv
    have hc := digitsValue_head c cs n hv
    have hminus : c ≠ '-' := by
      intro e; rw [e] at hc; revert hc; decide
    have hplus : c ≠ '+' := by
      intro e; rw [e] at hc; revert hc; decide
    simp [hminus, hplus, hv]

theorem ParseInt_sound (s : String) (i : Int) (h : ParseInt s 10 64 = .ok i) :
    decimalLiteral s = some i ∧ -(2 ^ 63) ≤ i ∧ i < 2 ^ 63 := by
  unfold ParseInt at h
  unfold decimalLiteral
  cases hs : s.data with
  | nil => rw [hs] at h; simp at h
  | cons c cs =>
    rw [hs] at h
    simp only at h ⊢
    by_cases hminus : c = '-'
    · subst hminus
      simp only [or_true, if_true, decide_True] at h ⊢
      cases hp : ParseUint (String.mk cs) 10 64 with
      | error e => rw [hp] at h; cases e <;> simp at h
      | ok un =>
        rw [hp] at h
        obtain ⟨hv, hlt⟩ := ParseUint_sound _ un hp
        simp only [Bool.true_eq_false, false_and, if_false, true_and] at h
        split_ifs at h with h1
        simp only [Except.ok.injEq] at h
        subst h
        norm_num at h1
        exact ⟨by simp [hv], by omega, by omega⟩
    · by_cases hplus : c = '+'
      · subst hplus
        simp only [true_or, if_true, hminus, decide_False, if_false] at h ⊢
        cases hp : ParseUint (String.mk cs) 10 64 with
        | error e => rw [hp] at h; cases e <;> simp at h
        | ok un =>
          rw [hp] at h
          obtain ⟨hv, hlt⟩ := ParseUint_sound _ un hp
          simp only [true_and, Bool.false_eq_true, false_and, if_false] at h
          split_ifs at h with h1
          simp only [Except.ok.injEq] at h
          subst h
          norm_num at h1
          exact ⟨by simp [hv], by omega, by omega⟩
      · simp only [hminus, hplus, or_self, if_false, decide_False] at h ⊢
        cases hp : ParseUint (String.mk (c :: cs)) 10 64 with
        | error e => rw [hp] at h; cases e <;> simp at h
        | ok un =>
          rw [hp] at h
          obtain ⟨hv, hlt⟩ := ParseUint_sound _ un hp
          simp only [true_and, Bool.false_eq_true, false_and, if_false] at h
          split_ifs at h with h1
          simp only [Except.ok.injEq] at h
          subst h
          norm_num at h1
          exact ⟨by simp [hv], by omega, by omega⟩

/-- C13, as stated, fails: the empty text is no base-10 integer, yet for a required
`int8` field a found empty value ends the call with the missing-required error of the
field, which is not a coercion error. -/
theorem C13_counterexample :
    decimalLiteral "" = none ∧
    BindStruct lib64 (.structPtr [{ fieldInt8 with envTag := "INT8,required" }])
        (mapProvider [("INT8", "")])
      = ⟨.structPtr [{ fieldInt8 with envTag := "INT8,required" }], ["INT8"],
          some (.requiredMissing "INT8")⟩ ∧
    (BindError.requiredMissing "INT8").errorClass ≠ .CoercionError := by
  refine ⟨by decide, by decide, by decide⟩

/-- C13, as amended: integers beyond 64 bits and texts that are no integers are
rejected without writing. When the fields before the annotated integer field `f` bind
without error and the found value `v` (not empty when the field is required) is not a
base-10 literal of an integer of the signed 64-bit range, for a signed field of any
width, or of the unsigned 64-bit range, for an unsigned field of any width, the call
ends at `f` with the parse error of the field, a coercion error, and `f` is left as it
was. -/
theorem C13_beyond_64_bits_rejected {F C : Type} (L : GoLib F C) (provider : dataProvider)
    (pre : List (Field F C)) (f : Field F C) (post : List (Field F C)) (v : String)
    (hann : f.annotated)
    (hpre : (bindFields L provider pre).err = none)
    (hlook : provider (envVarName f.envTag) = .ok v)
    (hval : v = "" → isRequired f.envTag = false) :
    (signedKind f.kind = true →
      (∀ i, decimalLiteral v = some i → i < -(2 ^ 63) ∨ 2 ^ 63 ≤ i) →
      ∃ cause, BindStruct L (.structPtr (pre ++ f :: post)) provider
          = ofLoop (failedAt L provider pre f post (.parseInt f.Name cause)) ∧
        (BindError.parseInt f.Name cause).errorClass = .CoercionError) ∧
    (unsignedKind f.kind = true →
      (∀ i, decimalLiteral v = some i → i < 0 ∨ 2 ^ 64 ≤ i) →
      ∃ cause, BindStruct L (.structPtr (pre ++ f :: post)) provider
          = ofLoop (failedAt L provider pre f post (.parseUint f.Name cause)) ∧
        (BindError.parseUint f.Name cause).errorClass = .CoercionError) := by
  constructor
  · intro hk hbad
    cases hp : ParseInt v 10 64 with
    | ok i =>
      obtain ⟨hlit, h1, h2⟩ := ParseInt_sound v i hp
      rcases hbad i hlit with h | h <;> omega
    | error cause =>
      refine ⟨cause, ?_, rfl⟩
      apply BindStruct_found_err L provider pre f post v _ hann hpre hlook hval
      rw [setField_signed L f.kind f.Name v hk, hp]
  · intro hk hbad
    cases hp : ParseUint v 10 64 with
    | ok n =>
      obtain ⟨hlit, h1⟩ := ParseUint_sound_literal v n hp
      rcases hbad n hlit with h | h <;> omega
    | error cause =>
      refine ⟨cause, ?_, rfl⟩
      apply BindStruct_found_err L provider pre f post v _ hann hpre hlook hval
      rw [setField_unsigned L f.kind f.Name v hk, hp]

/-- The text `99999999999999999999` bound to the `int8` field of the test struct: the
call fails with the parse error of the field, which keeps its value. -/
theorem C13_beyond_64_bits_rejected_witness :
    ∃ cause, BindStruct lib64 (.structPtr ([fieldString] ++ fieldInt8 :: [fieldBool]))
          (mapProvider [("INT8", "99999999999999999999")])
        = ofLoop (failedAt lib64 (mapProvider [("INT8", "99999999999999999999")])
            [fieldString] fieldInt8 [fieldBool] (.parseInt fieldInt8.Name cause)) ∧
      (BindError.parseInt fieldInt8.Name cause).errorClass = .CoercionError :=
  (C13_beyond_64_bits_rejected lib64 (mapProvider [("INT8", "99999999999999999999")])
    [fieldString] fieldInt8 [fieldBool] "99999999999999999999"
    (by decide) (by decide) (by decide) (by decide)).1 (by decide)
    (by
      intro i hi
      have hlit : decimalLiteral "99999999999999999999" = some 99999999999999999999 := by
        decide
      rw [hlit] at hi
      cases hi
      decide)

/-! ## Floats and complex numbers -/

/-- C14, the failing path: binding a text to the `complex128` field `Complex` of the
test struct stores what `strconv.ParseComplex` gives for bit size 64, that is the
value rounded to `complex64` precision, whatever the text; for the text `16777217+0i`
that is 16777216, which differs from the value of the literal by 1. -/
theorem C14_complex128_parsed_at_complex64 {F C : Type} (L : GoLib F C) (z0 : C)
    (text : String) :
    BindStruct L (.structPtr [fieldComplex z0]) (mapProvider [("COMPLEX", text)])
      = match L.ParseComplex text 64 with
        | .ok z => ⟨.structPtr [fieldComplex z], ["COMPLEX"], none⟩
        | .error cause =>
          ⟨.structPtr [fieldComplex z0], ["COMPLEX"], some (.parseComplex "Complex" cause)⟩ := by
  have hk : envVarName "COMPLEX" = "COMPLEX" := by decide
  have hr : isRequired "COMPLEX" = false := by decide
  have hp : mapProvider [("COMPLEX", text)] "COMPLEX" = .ok text := by
    simp [mapProvider, List.lookup]
  have hne : ("COMPLEX" : String) ≠ "" := by decide
  have hann : (fieldComplex z0 : Field F C).annotated := ⟨rfl, hne⟩
  have hb := bindField_found L (mapProvider [("COMPLEX", text)]) (fieldComplex z0) text hann
    (by rw [show (fieldComplex z0 : Field F C).envTag = "COMPLEX" from rfl, hk]; exact hp)
    (fun _ => hr)
  rw [BindStruct_structPtr, bindFields_cons, hb]
  have hs : setField L (fieldComplex z0 : Field F C).kind (fieldComplex z0 : Field F C).Name text
      = match L.ParseComplex text 64 with
        | .error err => .error (.parseComplex "Complex" err)
        | .ok val => .ok (.complex val) := by
    simp [setField, fieldComplex, SetComplex]
  rw [hs]
  cases hc : L.ParseComplex text 64 with
  | error cause => simp [ofLoop, fieldComplex, hk]
  | ok z => simp [ofLoop, fieldComplex, hk, bindFields]

/-! ## The loader -/

theorem cutChars_none (sep : Char) (l : List Char) (h : sep ∉ l) : cutChars sep l = none := by
  induction l with
  | nil => rfl
  | cons c cs ih =>
    have hc : c ≠ sep := fun e => h (by simp [e])
    have hcs : sep ∉ cs := fun e => h (List.mem_cons_of_mem _ e)
    simp [cutChars, hc, ih hcs]

theorem cutChars_some (sep : Char) (l : List Char) (h : sep ∈ l) :
    cutChars sep l = some (l.takeWhile (fun c => decide (c ≠ sep)),
      (l.dropWhile (fun c => decide (c ≠ sep))).drop 1) := by
  induction l with
  | nil => simp at h
  | cons c cs ih =>
    by_cases hc : c = sep
    · simp [cutChars, hc]
    · have hcs : sep ∈ cs := by
        rcases List.mem_cons.mp h with e | e
        · exact absurd e.symm hc
        · exact e
      simp [cutChars, hc, ih hcs]

theorem HasPrefix_hash (s : String) : HasPrefix s "#" = true ↔ s.data.head? = some '#' := by
  unfold HasPrefix
  have : ("#" : String).data = ['#'] := rfl
  rw [this]
  cases hd : s.data with
  | nil => simp [List.isPrefixOf]
  | cons c cs =>
    simp only [List.isPrefixOf, List.head?_cons, Option.some.injEq, Bool.and_true,
      beq_iff_eq]
    constructor <;> intro h <;> exact h.symm

theorem loadLines_cons (text : String) (rest : List String) (env : Environ) :
    loadLines (text :: rest) env =
      if ignoredLine text = true then loadLines rest env
      else if malformedLine text = true then (env, some (.invalidFormat (TrimSpace text)))
      else loadLines rest (Setenv env (lineKey text) (lineValue text)) := by
  rw [loadLines]
  simp only [HasPrefix_hash]
  by_cases hi : (TrimSpace text).data.head? = some '#' ∨ TrimSpace text = ""
  · have hig : ignoredLine text = true := by simp [ignoredLine, hi]
    rw [if_pos hi, if_pos hig]
  · have hig : ignoredLine text = false := by simp [ignoredLine, hi]
    rw [if_neg hi]
    simp only [hig, Bool.false_eq_true, if_false]
    by_cases hm : '=' ∈ (TrimSpace text).data
    · have hmal : malformedLine text = false := by
        simp [malformedLine, hig, hm]
      have hsplit : SplitN (TrimSpace text) '=' 2 =
          [String.mk ((TrimSpace text).data.takeWhile (fun c => decide (c ≠ '='))),
            String.mk (((TrimSpace text).data.dropWhile (fun c => decide (c ≠ '='))).drop 1)] := by
        simp [SplitN, splitNChars, cutChars_some '=' _ hm]
      simp [hsplit, hmal, lineKey, lineValue]
    · have hmal : malformedLine text = true := by
        simp [malformedLine, hig, hm]
      have hsplit : SplitN (TrimSpace text) '=' 2 = [TrimSpace text] := by
        simp [SplitN, splitNChars, cutChars_none '=' _ hm]
      simp [hsplit, hmal]

theorem loadLines_ok (ls : List String) :
    ∀ env : Environ, (∀ t ∈ ls, malformedLine t = false) →
      loadLines ls env =
        (fun k => match lastValue (ls.filterMap lineEntry) k with
          | some v => some v
          | none => env k, none) := by
  induction ls with
  | nil => intro env _; rfl
  | cons t rest ih =>
    intro env h
    have hrest : ∀ x ∈ rest, malformedLine x = false :=
      fun x hx => h x (List.mem_cons_of_mem _ hx)
    have ht : malformedLine t = false := h t (List.mem_cons_self _ _)
    rw [loadLines_cons]
    by_cases hi : ignoredLine t = true
    · rw [if_pos hi, ih env hrest]
      simp [List.filterMap_cons, lineEntry, hi]
    · rw [if_neg hi, if_neg (by simp [ht]), ih _ hrest]
      by_cases ha : setenvAccepts (lineKey t) (lineValue t) = true
      · simp only [List.filterMap_cons, lineEntry, hi, ha, if_true, if_false, lastValue, Setenv,
          Bool.false_eq_true, Prod.mk.injEq, and_true]
        funext k
        cases lastValue (rest.filterMap lineEntry) k with
        | some v => rfl
        | none => by_cases hk : k = lineKey t <;> simp [hk]
      · simp [List.filterMap_cons, lineEntry, hi, ha, Setenv]

theorem loadLines_append (pre rest : List String) :
    ∀ env : Environ, (∀ t ∈ pre, malformedLine t = false) →
      loadLines (pre ++ rest) env = loadLines rest (loadLines pre env).1 := by
  induction pre with
  | nil => intro env _; rfl
  | cons t pre ih =>
    intro env h
    have hpre : ∀ x ∈ pre, malformedLine x = false :=
      fun x hx => h x (List.mem_cons_of_mem _ hx)
    have ht : malformedLine t = false := h t (List.mem_cons_self _ _)
    rw [List.cons_append, loadLines_cons, loadLines_cons]
    by_cases hi : ignoredLine t = true
    · rw [if_pos hi, if_pos hi, ih env hpre]
    · rw [if_neg hi, if_neg hi, if_neg (by simp [ht]), if_neg (by simp [ht]), ih _ hpre]

theorem loadLines_err (ls : List String) :
    ∀ env : Environ, (∃ t ∈ ls, malformedLine t = true) →
      ∃ line, (loadLines ls env).2 = some (.invalidFormat line) := by
  induction ls with
  | nil => intro env h; simp at h
  | cons t rest ih =>
    intro env h
    rw [loadLines_cons]
    by_cases hm : malformedLine t = true
    · have hi : ignoredLine t = false := by
        simp only [malformedLine, Bool.and_eq_true, Bool.not_eq_true'] at hm
        exact hm.1
      rw [if_neg (by simp [hi]), if_pos hm]
      exact ⟨_, rfl⟩
    · have hrest : ∃ x ∈ rest, malformedLine x = true := by
        obtain ⟨x, hx, hxm⟩ := h
        rcases List.mem_cons.mp hx with rfl | hx
        · exact absurd hxm hm
        · exact ⟨x, hx, hxm⟩
      by_cases hi : ignoredLine t = true
      · rw [if_pos hi]
        exact ih env hrest
      · rw [if_neg hi, if_neg hm]
        exact ih _ hrest

/-- C15, as stated, fails: the line `A=B=C` has two `=` and is neither blank nor a
comment, yet the load succeeds and sets `A` to `B=C`. -/
theorem C15_counterexample :
    "A=B=C".data.count '=' = 2 ∧ ignoredLine "A=B=C" = false ∧
    (LoadEnvReader (textReader "A=B=C") (environOf [])).2 = none ∧
    (LoadEnvReader (textReader "A=B=C") (environOf [])).1 "A" = some "B=C" := by
  refine ⟨by decide, by decide, by decide, by decide⟩

/-- C15, as amended: the load fails with the format error if and only if some line the
scanner yields is, after trimming, neither blank nor a comment and contains no `=`;
the line `FOO` aborts the load, and a line with two or more `=` does not: it is split at
the first one. -/
theorem C15_format_error_iff (r : Reader) (env : Environ) :
    ((∃ line, (LoadEnvReader r env).2 = some (.invalidFormat line))
      ↔ ∃ text ∈ r.lines, malformedLine text = true) ∧
    (LoadEnvReader (textReader "FOO") env).2 = some (.invalidFormat "FOO") ∧
    (LoadEnvReader (textReader "A=B=C") env).2 = none := by
  refine ⟨⟨?_, ?_⟩, ?_, ?_⟩
  · rintro ⟨line, hl⟩
    by_contra hno
    have hall : ∀ t ∈ r.lines, malformedLine t = false := by
      intro t ht
      cases hm : malformedLine t
      · rfl
      · exact absurd ⟨t, ht, hm⟩ hno
    unfold LoadEnvReader at hl
    rw [loadLines_ok r.lines env hall] at hl
    cases hr : r.err <;> simp [hr] at hl
  · intro h
    obtain ⟨line, hl⟩ := loadLines_err r.lines env h
    refine ⟨line, ?_⟩
    unfold LoadEnvReader
    cases hp : loadLines r.lines env with
    | mk e1 er =>
      rw [hp] at hl
      simp only at hl
      subst hl
      rfl
  · rfl
  · rfl

/-- C16, as stated, fails: in the source `=x` the only line contains `=`, its key is
the empty text and its value is `x`, yet after the load, which returns no error, the
environment has no variable of the empty name: `os.Setenv` rejects the empty key and
its error is dropped. -/
theorem C16_counterexample :
    malformedLine "=x" = false ∧ lineKey "=x" = "" ∧ lineValue "=x" = "x" ∧
    (LoadEnvReader (textReader "=x") (environOf [])).2 = none ∧
    (LoadEnvReader (textReader "=x") (environOf [])).1 "" = none ∧
    LookupEnv (LoadEnvReader (textReader "=x") (environOf [])).1 "" = none := by
  refine ⟨by decide, by decide, by decide, by decide, by decide, by decide⟩

/-- C16, as amended: for a source that is read to its end without read error and in
which every line that is neither blank nor a comment contains `=`, and for every
environment before the call, the load returns no error and the environment after it
maps each key `k` to the value of the last line with key `k` among the lines whose key
and value the environment accepts (the key being the trimmed text before the first
`=` of the trimmed line, the value the trimmed text after it), and every key of no
such line to what it was mapped to before; blank lines, comments and lines the
environment rejects have no effect. -/
theorem C16_load_result (r : Reader) (env : Environ)
    (hwell : ∀ text ∈ r.lines, malformedLine text = false) (herr : r.err = none) :
    (LoadEnvReader r env).2 = none ∧
      ∀ k, (LoadEnvReader r env).1 k =
        match lastValue (r.lines.filterMap lineEntry) k with
        | some v => some v
        | none => env k := by
  unfold LoadEnvReader
  rw [loadLines_ok r.lines env hwell, herr]
  exact ⟨rfl, fun _ => rfl⟩

/-- The source with the line `  KEY = value  ` after a comment and a blank line stores
the key `KEY` with the value `value` and leaves the other variables as they were. -/
theorem C16_load_result_witness :
    lineEntry "  KEY = value  " = some ("KEY", "value") ∧
    ((LoadEnvReader (textReader "# c\n\n  KEY = value  \n") (environOf [("A", "1")])).2 = none ∧
      ∀ k, (LoadEnvReader (textReader "# c\n\n  KEY = value  \n") (environOf [("A", "1")])).1 k =
        match lastValue ((textReader "# c\n\n  KEY = value  \n").lines.filterMap lineEntry) k with
        | some v => some v
        | none => environOf [("A", "1")] k) :=
  ⟨by decide, C16_load_result (textReader "# c\n\n  KEY = value  \n") (environOf [("A", "1")])
    (by decide) (by decide)⟩

/-- C20, as stated, fails: in the source with the lines `=x` and `FOO` the load fails at
the line `FOO`; the line `=x` before it is well formed, its key is the empty text and
its value is `x`, yet after the failed load the environment has no variable of the
empty name: `os.Setenv` rejects the empty key and its error is dropped, so that pair
was never written. -/
theorem C20_counterexample :
    malformedLine "=x" = false ∧ malformedLine "FOO" = true ∧
    lineKey "=x" = "" ∧ lineValue "=x" = "x" ∧
    (LoadEnvReader (textReader "=x\nFOO") (environOf [])).2 = some (.invalidFormat "FOO") ∧
    (LoadEnvReader (textReader "=x\nFOO") (environOf [])).1 "" = none ∧
    LookupEnv (LoadEnvReader (textReader "=x\nFOO") (environOf [])).1 "" = none := by
  refine ⟨by decide, by decide, by decide, by decide, by decide, by decide, by decide⟩

/-- C20, as amended: the load is not atomic. When the lines before the line `bad` are
well formed and `bad` is neither blank nor a comment and has no `=`, the load returns
the format error for `bad`, and the environment after it is the one the load of the
lines before `bad` alone gives, without error: every pair of those lines that the
environment accepts has been written and stays, each key holding the value of the last
such line before `bad`, every other key is as before the call, and no line from `bad`
on is processed. -/
theorem C20_load_not_atomic (pre : List String) (bad : String) (post : List String)
    (err : Option String) (env : Environ)
    (hpre : ∀ text ∈ pre, malformedLine text = false) (hbad : malformedLine bad = true) :
    LoadEnvReader ⟨pre ++ bad :: post, err⟩ env
        = ((LoadEnvReader ⟨pre, none⟩ env).1, some (.invalidFormat (TrimSpace bad))) ∧
      (LoadEnvReader ⟨pre, none⟩ env).2 = none ∧
      ∀ k, (LoadEnvReader ⟨pre ++ bad :: post, err⟩ env).1 k =
        match lastValue (pre.filterMap lineEntry) k with
        | some v => some v
        | none => env k := by
  have hi : ignoredLine bad = false := by
    simp only [malformedLine, Bool.and_eq_true, Bool.not_eq_true'] at hbad
    exact hbad.1
  have h1 : LoadEnvReader ⟨pre ++ bad :: post, err⟩ env
      = ((loadLines pre env).1, some (.invalidFormat (TrimSpace bad))) := by
    unfold LoadEnvReader
    simp only
    rw [loadLines_append pre (bad :: post) env hpre, loadLines_cons, if_neg (by simp [hi]),
      if_pos hbad]
  have h2 : LoadEnvReader ⟨pre, none⟩ env = ((loadLines pre env).1, none) := by
    unfold LoadEnvReader
    simp only
    rw [loadLines_ok pre env hpre]
  refine ⟨by rw [h1, h2], by rw [h2], ?_⟩
  intro k
  rw [h1]
  simp only
  rw [loadLines_ok pre env hpre]

/-- The source with the lines `A=1`, `FOO`, `B=2` fails at `FOO`; `A` is set and stays
set, `B` is not set. -/
theorem C20_load_not_atomic_witness :
    (LoadEnvReader ⟨["A=1"] ++ "FOO" :: ["B=2"], none⟩ (environOf [])
        = ((LoadEnvReader ⟨["A=1"], none⟩ (environOf [])).1,
            some (.invalidFormat (TrimSpace "FOO"))) ∧
      (LoadEnvReader ⟨["A=1"], none⟩ (environOf [])).2 = none ∧
      ∀ k, (LoadEnvReader ⟨["A=1"] ++ "FOO" :: ["B=2"], none⟩ (environOf [])).1 k =
        match lastValue (["A=1"].filterMap lineEntry) k with
        | some v => some v
        | none => environOf [] k) ∧
    (LoadEnvReader ⟨["A=1"] ++ "FOO" :: ["B=2"], none⟩ (environOf [])).1 "A" = some "1" ∧
    (LoadEnvReader ⟨["A=1"] ++ "FOO" :: ["B=2"], none⟩ (environOf [])).1 "B" = none :=
  ⟨C20_load_not_atomic ["A=1"] "FOO" ["B=2"] none (environOf []) (by decide) (by decide),
    by decide, by decide⟩

/-! ## End to end -/

theorem load_scenario (env : Environ) :
    LoadEnvReader (textReader "STRING=hello") env
      = (fun k => if k = "STRING" then some "hello" else env k, none) := by
  have hl : (textReader "STRING=hello").lines = ["STRING=hello"] := by decide
  have he : (textReader "STRING=hello").err = none := rfl
  have hi : ignoredLine "STRING=hello" = false := by decide
  have hm : malformedLine "STRING=hello" = false := by decide
  have hk : lineKey "STRING=hello" = "STRING" := by decide
  have hv : lineValue "STRING=hello" = "hello" := by decide
  have ha : setenvAccepts "STRING" "hello" = true := by decide
  unfold LoadEnvReader
  rw [hl, he, loadLines_cons, if_neg (by simp [hi]), if_neg (by simp [hm]), hk, hv]
  simp [loadLines, Setenv, ha]

/-- C17, as stated, fails: the environment is global and the load only adds to it. With
`BOOL` already set to `Y` before the call, the call returns no error; with `INT`
already set to a text that is no number, it fails with the parse error of `Count`. -/
theorem C17_counterexample :
    (LoadAndBindEnvReader lib64 (textReader "STRING=hello") (.structPtr scenarioConfig)
      (environOf [("BOOL", "Y")])).err = none ∧
    (LoadAndBindEnvReader lib64 (textReader "STRING=hello") (.structPtr scenarioConfig)
      (environOf [("INT", "abc")])).err = some (.bind (.parseInt "Count" .ErrSyntax)) := by
  refine ⟨by decide, by decide⟩

/-- C17, as amended: `LoadAndBindEnvReader` on the source `STRING=hello` and the record
`String`, `Count`, `Flag` fails with a missing-required error for `Flag`, for every
environment before the call in which `BOOL` is not set or is empty and `INT` is not set
or holds a text `strconv.ParseInt` accepts: the lookup failure of the field `Flag`,
whose cause names the key `BOOL`, when `BOOL` is not set, and the missing-required
error for the key `BOOL` when it is set and empty. -/
theorem C17_missing_flag {F C : Type} (L : GoLib F C) (env : Environ)
    (hbool : LookupEnv env "BOOL" = none ∨ LookupEnv env "BOOL" = some "")
    (hint : LookupEnv env "INT" = none
      ∨ ∃ v i, LookupEnv env "INT" = some v ∧ ParseInt v 10 64 = .ok i) :
    ∃ e, (LoadAndBindEnvReader L (textReader "STRING=hello") (.structPtr scenarioConfig)
          env).err = some (.bind e) ∧
      e.errorClass = .MissingRequired ∧
      ((LookupEnv env "BOOL" = none ∧
          e = .getValue "Flag" "environment variable BOOL not found") ∨
        (LookupEnv env "BOOL" = some "" ∧ e = .requiredMissing "BOOL")) := by
  let env1 : Environ := fun k => if k = "STRING" then some "hello" else env k
  have hlook : ∀ k, k ≠ "STRING" → LookupEnv env1 k = LookupEnv env k := by
    intro k hk
    simp [LookupEnv, env1, hk]
  have hI : LookupEnv env1 "INT" = LookupEnv env "INT" := hlook "INT" (by decide)
  have hB : LookupEnv env1 "BOOL" = LookupEnv env "BOOL" := hlook "BOOL" (by decide)
  have hS : envProvider env1 "STRING" = .ok "hello" := by
    simp [envProvider, LookupEnv, env1]
  let fS : Field F C := ⟨"String", true, "STRING", .String, .str ""⟩
  let fC : Field F C := ⟨"Count", true, "INT", .Int, .int 0⟩
  let fF : Field F C := ⟨"Flag", true, "BOOL,required", .Bool, .bool false⟩
  have hne1 : ("STRING" : String) ≠ "" := by decide
  have hne2 : ("INT" : String) ≠ "" := by decide
  have hne3 : ("BOOL,required" : String) ≠ "" := by decide
  have hk1 : envVarName "STRING" = "STRING" := by decide
  have hk2 : envVarName "INT" = "INT" := by decide
  have hk3 : envVarName "BOOL,required" = "BOOL" := by decide
  have hr1 : isRequired "STRING" = false := by decide
  have hr2 : isRequired "INT" = false := by decide
  have hr3 : isRequired "BOOL,required" = true := by decide
  have hbS : (bindField L (envProvider env1) fS).err = none := by
    rw [bindField_found L (envProvider env1) fS "hello" ⟨rfl, hne1⟩
      (by show envProvider env1 (envVarName "STRING") = _; rw [hk1]; exact hS)
      (fun _ => hr1)]
    rfl
  have hbC : (bindField L (envProvider env1) fC).err = none := by
    rcases hint with hn | ⟨v, i, hv, hp⟩
    · rw [bindField_optional_absent L (envProvider env1) fC
        "environment variable INT not found" ⟨rfl, hne2⟩ hr2
        (by show envProvider env1 (envVarName "INT") = _
            rw [hk2]; simp only [envProvider, hI, hn]; rfl)]
    · rw [bindField_found L (envProvider env1) fC v ⟨rfl, hne2⟩
        (by show envProvider env1 (envVarName "INT") = _
            rw [hk2]; simp only [envProvider, hI, hv])
        (fun _ => hr2)]
      have : setField L fC.kind fC.Name v = .ok (SetInt L .Int i) := by
        show setField L .Int "Count" v = _
        simp only [setField, hp]
      rw [this]
  have hpre : (bindFields L (envProvider env1) [fS, fC]).err = none := by
    rw [bindFields_cons_ok L _ fS [fC] hbS, bindFields_cons_ok L _ fC [] hbC]
    rfl
  have hcfg : (scenarioConfig : List (Field F C)) = [fS, fC] ++ fF :: [] := rfl
  have hcall : ∀ e, (bindField L (envProvider env1) fF).err = some e →
      (LoadAndBindEnvReader L (textReader "STRING=hello") (.structPtr scenarioConfig)
          env).err = some (.bind e) := by
    intro e he
    unfold LoadAndBindEnvReader
    rw [load_scenario env]
    simp only
    rw [hcfg, BindStruct_structPtr, bindFields_failedAt L _ [fS, fC] fF [] e hpre he]
    rfl
  rcases hbool with hn | hn
  · refine ⟨.getValue "Flag" "environment variable BOOL not found", hcall _ ?_, rfl,
      Or.inl ⟨hn, rfl⟩⟩
    rw [bindField_required_absent L (envProvider env1) fF
      "environment variable BOOL not found" ⟨rfl, hne3⟩ hr3
      (by show envProvider env1 (envVarName "BOOL,required") = _
          rw [hk3]; simp only [envProvider, hB, hn]; rfl)]
  · refine ⟨.requiredMissing "BOOL", hcall _ ?_, rfl, Or.inr ⟨hn, rfl⟩⟩
    rw [bindField_required_empty L (envProvider env1) fF ⟨rfl, hne3⟩ hr3
      (by show envProvider env1 (envVarName "BOOL,required") = _
          rw [hk3]; simp only [envProvider, hB, hn])]
    show some (BindError.requiredMissing (envVarName "BOOL,required")) = _
    rw [hk3]

/-- With nothing set before the call, the call fails for `Flag` with the lookup failure
naming `BOOL`. -/
theorem C17_missing_flag_witness :
    ∃ e, (LoadAndBindEnvReader lib64 (textReader "STRING=hello")
          (.structPtr scenarioConfig) (environOf [])).err = some (.bind e) ∧
      e.errorClass = .MissingRequired ∧
      ((LookupEnv (environOf []) "BOOL" = none ∧
          e = .getValue "Flag" "environment variable BOOL not found") ∨
        (LookupEnv (environOf []) "BOOL" = some "" ∧ e = .requiredMissing "BOOL")) :=
  C17_missing_flag lib64 (environOf []) (Or.inl (by decide)) (Or.inl (by decide))

end Envloader
